import Mathlib

/-!
Verification of the live trace aggregation engine of `planoai/trace_cmd.py`.

The Python module keeps an in-memory `_TraceStore` (an `OrderedDict` of trace
groups plus three plain dicts: per-group seen-span-id sets, a `span_id →
group_key` index and a `parent_span_id → group_key` index), fed by an OTLP
`Export` endpoint, and a pure query layer (`_parse_since_seconds`,
`_filter_traces`, `_matches_pattern`, `_filter_attributes`, target
validation in `_run_trace_show`).

This file gives a shallow embedding of those parts.  Python dicts are
modelled as association lists with Python's update semantics (updating an
existing key keeps its position, a new key is appended at the end, which is
also exactly the iteration-order behaviour of `OrderedDict` used by the
store).  Python sets of strings are modelled as duplicate-free lists in
insertion order (only membership is ever observed).  Spans are modelled by
the only fields the store logic reads (`spanId`, `parentSpanId`); the query
layer has its own span shape mirroring the JSON dicts it consumes.
-/

namespace TraceCmd

/-- Structural equality of `Except` results is decidable (used to state
validation outcomes). -/
instance {ε α : Type} [DecidableEq ε] [DecidableEq α] : DecidableEq (Except ε α) :=
  fun x y =>
    match x, y with
    | Except.ok a, Except.ok b => decidable_of_iff (a = b) (by simp)
    | Except.error a, Except.error b => decidable_of_iff (a = b) (by simp)
    | Except.ok _, Except.error _ => isFalse (by simp)
    | Except.error _, Except.ok _ => isFalse (by simp)

/-- A Python `dict` with string keys, as an association list.
`d[k]` lookup returns the first (and, for dicts built only through
`Assoc.set` / `Assoc.erase`, unique) binding of `k`. -/
abbrev Assoc (α : Type) := List (String × α)

/-- Python `d.get(k)` / `d[k]`: first binding of `k`, if any. -/
def Assoc.get? {α : Type} : Assoc α → String → Option α
  | [], _ => none
  | (k, v) :: rest, key => if k = key then some v else Assoc.get? rest key

/-- Python `k in d`. -/
def Assoc.contains {α : Type} : Assoc α → String → Bool
  | [], _ => false
  | (k, _) :: rest, key => if k = key then true else Assoc.contains rest key

/-- Python `d[k] = v`: replace the value in place if `k` is bound,
otherwise append the new binding at the end (dict insertion order). -/
def Assoc.set {α : Type} : Assoc α → String → α → Assoc α
  | [], key, v => [(key, v)]
  | (k, w) :: rest, key, v =>
    if k = key then (k, v) :: rest else (k, w) :: Assoc.set rest key v

/-- Python `d.pop(k, None)`: drop every binding of `k`. -/
def Assoc.erase {α : Type} : Assoc α → String → Assoc α
  | [], _ => []
  | (k, v) :: rest, key =>
    if k = key then Assoc.erase rest key else (k, v) :: Assoc.erase rest key

/-- Python `OrderedDict.move_to_end(k)`: move the binding of `k` to the
end of the iteration order (the store only calls it on present keys). -/
def Assoc.moveToEnd {α : Type} (d : Assoc α) (key : String) : Assoc α :=
  match Assoc.get? d key with
  | none => d
  | some v => Assoc.erase d key ++ [(key, v)]

/-- The keys of a dict, in iteration order. -/
def Assoc.keys {α : Type} (d : Assoc α) : List String := d.map Prod.fst

/-- `MAX_TRACES = 50` (trace_cmd.py line 27). -/
def MAX_TRACES : Nat := 50

/-- `MAX_SPANS_PER_TRACE = 500` (trace_cmd.py line 28). -/
def MAX_SPANS_PER_TRACE : Nat := 500

/-- A span as seen by the store: the only keys `_TraceStore` ever reads
from the span dict are `spanId` and `parentSpanId` (the remaining payload
travels along unchanged and is irrelevant to grouping). -/
structure Span where
  spanId : String
  parentSpanId : String
  deriving Repr, DecidableEq

/-- One trace group: the dict `{"trace_id": group_key, "spans": [...]}`. -/
structure Group where
  trace_id : String
  spans : List Span
  deriving Repr, DecidableEq

/-- The mutable state of `_TraceStore`:
`_traces` (an `OrderedDict`, head = oldest in touch order),
`_seen_spans`, `_span_to_group`, `_parent_to_group`, `_max_traces`. -/
structure TraceStore where
  traces : Assoc Group
  seen_spans : Assoc (List String)
  span_to_group : Assoc String
  parent_to_group : Assoc String
  max_traces : Nat
  deriving Repr, DecidableEq

/-- `_TraceStore.__init__`. -/
def emptyStore (maxTraces : Nat := MAX_TRACES) : TraceStore :=
  { traces := [], seen_spans := [], span_to_group := [], parent_to_group := []
    max_traces := maxTraces }

/-- `_TraceStore._evict_oldest` (lines 282-291): pop the oldest group,
drop its seen-set, and pop the `span_id`/`parent_span_id` index entries
keyed by the span ids of the group's *retained* spans. -/
def evictOldest (st : TraceStore) : TraceStore :=
  match st.traces with
  | [] => st
  | (oldestId, oldest) :: rest =>
    let seen := Assoc.erase st.seen_spans oldestId
    let idx := oldest.spans.foldl
      (fun (acc : Assoc String × Assoc String) span =>
        (Assoc.erase acc.1 span.spanId, Assoc.erase acc.2 span.spanId))
      (st.span_to_group, st.parent_to_group)
    { st with traces := rest, seen_spans := seen,
              span_to_group := idx.1, parent_to_group := idx.2 }

/-- `_TraceStore._merge_groups` (lines 293-312): move all spans of group
`srcKey` into group `dstKey`; nonempty span ids not yet seen by the
destination are appended (uncapped) and recorded in its seen-set; every
moved span id is repointed in `span_to_group`, as is every id in the
source's seen-set; `parent_to_group` values pointing at the source are
repointed at the destination. -/
def mergeGroups (st : TraceStore) (srcKey dstKey : String) : TraceStore :=
  if srcKey = dstKey ∨ Assoc.contains st.traces srcKey = false then st
  else
    let src := (Assoc.get? st.traces srcKey).getD { trace_id := srcKey, spans := [] }
    let traces1 := Assoc.erase st.traces srcKey
    let dst := (Assoc.get? traces1 dstKey).getD { trace_id := dstKey, spans := [] }
    let dstSeen := (Assoc.get? st.seen_spans dstKey).getD []
    let srcSeen := (Assoc.get? st.seen_spans srcKey).getD []
    let seen1 := Assoc.erase st.seen_spans srcKey
    let folded := src.spans.foldl
      (fun (acc : List Span × List String × Assoc String) span =>
        if span.spanId ≠ "" ∧ span.spanId ∉ acc.2.1 then
          (acc.1 ++ [span], acc.2.1 ++ [span.spanId],
           Assoc.set acc.2.2 span.spanId dstKey)
        else
          (acc.1, acc.2.1, Assoc.set acc.2.2 span.spanId dstKey))
      (dst.spans, dstSeen, st.span_to_group)
    let s2g := srcSeen.foldl (fun m sid => Assoc.set m sid dstKey) folded.2.2
    let p2g := st.parent_to_group.map
      (fun pr => if pr.2 = srcKey then (pr.1, dstKey) else pr)
    { st with traces := Assoc.set traces1 dstKey { dst with spans := folded.1 },
              seen_spans := Assoc.set seen1 dstKey folded.2.1,
              span_to_group := s2g, parent_to_group := p2g }

/-- Steps 1-3 of `_TraceStore.merge_spans` (lines 326-339): resolve the
group key for one span.  Priority: (1) the parent already lives in a
group; (2) this span is recorded as the awaited parent of a group — that
`parent_to_group` entry is popped; (3) fall back to the wire trace id. -/
def resolveGroupKey (st : TraceStore) (trace_id : String) (span : Span) :
    String × TraceStore :=
  match (if span.parentSpanId ≠ "" then Assoc.get? st.span_to_group span.parentSpanId
         else none) with
  | some g => (g, st)
  | none =>
    match (if span.spanId ≠ "" then Assoc.get? st.parent_to_group span.spanId
           else none) with
    | some g => (g, { st with parent_to_group := Assoc.erase st.parent_to_group span.spanId })
    | none => (trace_id, st)

/-- Lines 341-348 of `merge_spans`: create the group if needed (evicting
the oldest group first when the store is at capacity), else mark it
most-recently-touched. -/
def ensureGroup (st : TraceStore) (group_key : String) : TraceStore :=
  if Assoc.contains st.traces group_key = false then
    let st := if st.traces.length ≥ st.max_traces then evictOldest st else st
    { st with traces := st.traces ++ [(group_key, { trace_id := group_key, spans := [] })],
              seen_spans := Assoc.set st.seen_spans group_key [] }
  else
    { st with traces := Assoc.moveToEnd st.traces group_key }

/-- Lines 350-369 of `merge_spans`: deduplicate against the group's
seen-set (an already-seen nonempty span id stops here — the Python
`continue`); otherwise record the id in the seen-set and the
`span_id → group_key` index, append the span if the group is below
`MAX_SPANS_PER_TRACE`, record the parent link, and run the merge check. -/
def insertSpan (st : TraceStore) (group_key : String) (span : Span) : TraceStore :=
  let seen := (Assoc.get? st.seen_spans group_key).getD []
  if span.spanId ≠ "" ∧ span.spanId ∈ seen then st
  else
    let st :=
      if span.spanId ≠ "" then
        { st with seen_spans := Assoc.set st.seen_spans group_key (seen ++ [span.spanId]),
                  span_to_group := Assoc.set st.span_to_group span.spanId group_key }
      else st
    let grp := (Assoc.get? st.traces group_key).getD { trace_id := group_key, spans := [] }
    let st :=
      if grp.spans.length < MAX_SPANS_PER_TRACE then
        { st with traces := Assoc.set st.traces group_key { grp with spans := grp.spans ++ [span] } }
      else st
    let st :=
      if span.parentSpanId ≠ "" ∧ Assoc.contains st.span_to_group span.parentSpanId = false then
        { st with parent_to_group := Assoc.set st.parent_to_group span.parentSpanId group_key }
      else st
    if span.spanId ≠ "" then
      match Assoc.get? st.parent_to_group span.spanId with
      | some other =>
        let st := { st with parent_to_group := Assoc.erase st.parent_to_group span.spanId }
        if other ≠ group_key ∧ Assoc.contains st.traces other = true then
          mergeGroups st other group_key
        else st
      | none => st
    else st

/-- Lines 360-369 of `merge_spans` factored out of `insertSpan` (the
parent-link recording and the merge check); definitionally equal to the
corresponding tail of `insertSpan`. -/
def insertLink (st : TraceStore) (group_key : String) (span : Span) : TraceStore :=
  let st :=
    if span.parentSpanId ≠ "" ∧ Assoc.contains st.span_to_group span.parentSpanId = false then
      { st with parent_to_group := Assoc.set st.parent_to_group span.parentSpanId group_key }
    else st
  if span.spanId ≠ "" then
    match Assoc.get? st.parent_to_group span.spanId with
    | some other =>
      let st := { st with parent_to_group := Assoc.erase st.parent_to_group span.spanId }
      if other ≠ group_key ∧ Assoc.contains st.traces other = true then
        mergeGroups st other group_key
      else st
    | none => st
  else st

/-- Lines 357-369 of `merge_spans` factored out of `insertSpan` (the
cap-gated append followed by `insertLink`); definitionally equal to the
corresponding tail of `insertSpan`. -/
def insertTail (st : TraceStore) (group_key : String) (span : Span) : TraceStore :=
  let grp := (Assoc.get? st.traces group_key).getD { trace_id := group_key, spans := [] }
  insertLink
    (if grp.spans.length < MAX_SPANS_PER_TRACE then
      { st with traces := Assoc.set st.traces group_key { grp with spans := grp.spans ++ [span] } }
    else st) group_key span

/-- The body of the per-span loop of `_TraceStore.merge_spans`
(lines 322-369). -/
def mergeSpansOne (st : TraceStore) (trace_id : String) (span : Span) : TraceStore :=
  let r := resolveGroupKey st trace_id span
  insertSpan (ensureGroup r.2 r.1) r.1 span

/-- `_TraceStore.merge_spans` (lines 314-369): the per-span loop. -/
def merge_spans (st : TraceStore) (trace_id : String) (spans : List Span) : TraceStore :=
  spans.foldl (fun st span => mergeSpansOne st trace_id span) st

/-- An incoming OTLP span at the `Export` endpoint, with the wire trace
id it was emitted under. -/
structure WireSpan where
  traceId : String
  spanId : String
  parentSpanId : String
  deriving Repr, DecidableEq

/-- The store-facing effect of `_OTLPTraceServicer.Export`
(lines 431-470): for each incoming span, a span whose wire trace id is
empty is skipped before the store is touched; every other span is handed
to `merge_spans` as a one-element batch.  The endpoint always returns the
empty `ExportTraceServiceResponse` (there is no failure path). -/
def exportSpans (st : TraceStore) (spans : List WireSpan) : TraceStore :=
  spans.foldl
    (fun st ws =>
      if ws.traceId = "" then st
      else merge_spans st ws.traceId [{ spanId := ws.spanId, parentSpanId := ws.parentSpanId }])
    st

/-! ### Query layer: `_parse_since_seconds`, `_filter_traces`, `_matches_pattern` -/

/-- Python `str.strip()` (ASCII whitespace; the exotic Unicode
whitespace Python also strips cannot occur in duration strings that
parse). -/
def pyStrip (s : String) : String :=
  String.mk (((s.data.dropWhile Char.isWhitespace).reverse.dropWhile Char.isWhitespace).reverse)

/-- The digit run of a Python integer literal: one or more ASCII digits
with single underscores allowed between digits (as accepted by `int`). -/
def pyDigitsCore : List Char → Nat → Option Nat
  | [], acc => some acc
  | '_' :: c :: rest, acc =>
    if c.isDigit then pyDigitsCore rest (acc * 10 + (c.toNat - '0'.toNat)) else none
  | c :: rest, acc =>
    if c.isDigit then pyDigitsCore rest (acc * 10 + (c.toNat - '0'.toNat)) else none

/-- Digits of a Python integer literal (nonempty, no leading underscore). -/
def pyDigits? : List Char → Option Nat
  | [] => none
  | c :: rest => if c.isDigit then pyDigitsCore rest (c.toNat - '0'.toNat) else none

/-- Python `int(s)` on a decimal string: surrounding whitespace is
stripped, an optional single sign precedes ASCII digits with optional
single underscores between digits (non-ASCII digit forms are out of
scope of this model).  `none` models the `ValueError`. -/
def pyInt? (s : String) : Option Int :=
  match (pyStrip s).data with
  | '+' :: rest => (pyDigits? rest).map Int.ofNat
  | '-' :: rest => (pyDigits? rest).map (fun n => -(Int.ofNat n))
  | cs => (pyDigits? cs).map Int.ofNat

/-- `_safe_int` (lines 138-142) applied to the string fields of the
JSON span dicts: `int(value)` with default `0` on parse failure (a
missing field behaves the same as an unparsable one). -/
def _safe_int (s : String) : Int := (pyInt? s).getD 0

/-- `_parse_since_seconds` (lines 145-161): strip the string, require at
least two characters, parse `value[:-1]` as an integer quantity and map
the final character through `{m: 60, h: 3600, d: 86400}`; any failure
yields `none` (no window filter). -/
def _parse_since_seconds (value : Option String) : Option Int :=
  match value with
  | none => none
  | some v =>
    if v = "" then none
    else
      let v := pyStrip v
      if v = "" then none
      else if v.length < 2 then none
      else
        match v.data.getLast? with
        | none => none
        | some unit =>
          match pyInt? (String.mk v.data.dropLast) with
          | none => none
          | some qty =>
            if unit = 'm' then some (qty * 60)
            else if unit = 'h' then some (qty * (60 * 60))
            else if unit = 'd' then some (qty * (60 * 60 * 24))
            else none

/-- Python `str.split` on the single character `'*'` (keeps empty
pieces, like `"a**b".split("*") == ["a", "", "b"]`). -/
def splitStar : List Char → List (List Char)
  | [] => [[]]
  | '*' :: rest => [] :: splitStar rest
  | c :: rest =>
    match splitStar rest with
    | [] => [[c]]
    | part :: parts => (c :: part) :: parts

/-- Index of the first occurrence of `needle` in `hay`
(Python `str.find`, `none` for `-1`). -/
def findSub (needle : List Char) : List Char → Option Nat
  | [] => if needle.isPrefixOf ([] : List Char) then some 0 else none
  | c :: t =>
    if needle.isPrefixOf (c :: t) then some 0
    else (findSub needle t).map (fun n => n + 1)

/-- The fragment loop of `_matches_pattern` (lines 172-179): consume each
fragment at its first occurrence in what remains of the value; on the
first fragment, a pattern that does not start with `*` requires the
occurrence at position 0.  Returns what remains after the last fragment,
or `none` on failure. -/
def fragLoop (startsStar : Bool) : List (List Char) → List Char → Bool → Option (List Char)
  | [], remaining, _ => some remaining
  | part :: rest, remaining, isFirst =>
    match findSub part remaining with
    | none => none
    | some pos =>
      if isFirst ∧ startsStar = false ∧ pos ≠ 0 then none
      else fragLoop startsStar rest (remaining.drop (pos + part.length)) false

/-- Python `str.startswith`. -/
def strStartsWith (s pre : String) : Bool := pre.data.isPrefixOf s.data

/-- Python `str.endswith`. -/
def strEndsWith (s suf : String) : Bool := suf.data.isSuffixOf s.data

/-- `_matches_pattern` (lines 164-182): `"*"` matches everything; a
pattern without `*` matches only by equality; otherwise the pattern's
nonempty `*`-separated fragments are consumed left to right, each at its
first occurrence, with the first anchored when the pattern does not start
with `*`, and the value must be exhausted when the pattern does not end
with `*`. -/
def _matches_pattern (value pattern : String) : Bool :=
  if pattern = "*" then true
  else if pattern.data.contains '*' = false then value == pattern
  else
    let parts := (splitStar pattern.data).filter (fun p => p ≠ [])
    if parts = [] then true
    else
      match fragLoop (strStartsWith pattern "*") parts value.data true with
      | none => false
      | some remaining =>
        if strEndsWith pattern "*" = false ∧ remaining ≠ [] then false else true

/-- Fragments placed disjointly, in order, somewhere in `s` (trying
every occurrence); with `endsFree = false` the last fragment must end
exactly at the end of `s`. -/
def fragsMatchTail (endsFree : Bool) : List (List Char) → List Char → Bool
  | [], s => endsFree || decide (s = [])
  | frag :: rest, s =>
    (List.range (s.length + 1)).any (fun i =>
      frag.isPrefixOf (s.drop i) && fragsMatchTail endsFree rest (s.drop (i + frag.length)))

/-- Modelled from the spec: "Matching is exact unless a pattern contains
`*`, in which case it is decomposed into literal fragments that must all
appear, in order, within the key (prefix/suffix anchoring determined by
whether the pattern starts/ends with `*`)."  For star-and-literal
patterns this is standard glob matching — also exactly what `fnmatch`
decides, which `_run_trace_show` itself uses to warn about unmatched
filter keys. -/
def specFragMatches (value pattern : String) : Bool :=
  if pattern.data.contains '*' = false then value == pattern
  else
    match (splitStar pattern.data).filter (fun p => p ≠ []) with
    | [] => true
    | first :: rest =>
      if strStartsWith pattern "*" then
        fragsMatchTail (strEndsWith pattern "*") (first :: rest) value.data
      else
        first.isPrefixOf value.data &&
          fragsMatchTail (strEndsWith pattern "*") rest (value.data.drop first.length)

/-- One span attribute `{key, value}` (values already stringified the
way `_attribute_map` stringifies them). -/
structure Attr where
  key : String
  value : String
  deriving Repr, DecidableEq

/-- A span as consumed by the query layer (the JSON dict shape): only
the fields the filters read.  A missing `startTimeUnixNano` behaves like
an unparsable one (both `_safe_int` to 0). -/
structure QSpan where
  startTimeUnixNano : String
  attributes : List Attr
  deriving Repr, DecidableEq

/-- A trace group as consumed by the query layer. -/
structure QTrace where
  trace_id : String
  spans : List QSpan
  deriving Repr, DecidableEq

/-- `_attribute_map` (lines 185-199): key → stringified value, later
bindings of a key overwriting earlier ones (Python dict assignment). -/
def _attribute_map (sp : QSpan) : Assoc String :=
  sp.attributes.foldl (fun m a => Assoc.set m a.key a.value) []

/-- `_filter_attributes` (lines 202-215): with a nonempty pattern list,
keep only the attributes whose key matches at least one pattern. -/
def _filter_attributes (sp : QSpan) (patterns : List String) : QSpan :=
  if patterns = [] then sp
  else
    { sp with attributes :=
        sp.attributes.filter (fun item => patterns.any (fun p => _matches_pattern item.key p)) }

/-- `_filter_traces` (lines 218-259).  `now_nanos` is passed explicitly
(the Python reads the wall clock).  Note the Python truthiness test
`if since_seconds` : a parsed window of `0` seconds disables the time
filter exactly like an unparsed one. -/
def _filter_traces (traces : List QTrace) (filter_patterns : List String)
    (where_filters : List (String × String)) (since_seconds : Option Int)
    (now_nanos : Int) : List QTrace × List String :=
  let since_nanos : Option Int :=
    match since_seconds with
    | some s => if s ≠ 0 then some (now_nanos - s * 1000000000) else none
    | none => none
  let filtered_traces := traces.foldl
    (fun acc trace =>
      let spans := trace.spans
      let spans :=
        match since_nanos with
        | some cutoff => spans.filter (fun sp => _safe_int sp.startTimeUnixNano ≥ cutoff)
        | none => spans
      let spans :=
        if filter_patterns ≠ [] then spans.map (fun sp => _filter_attributes sp filter_patterns)
        else spans
      if spans = [] then acc
      else acc ++ [{ trace with spans := spans }]) []
  let filtered_traces :=
    if where_filters ≠ [] then
      filtered_traces.filter (fun trace =>
        where_filters.all (fun kv =>
          trace.spans.any (fun sp => Assoc.get? (_attribute_map sp) kv.1 = some kv.2)))
    else filtered_traces
  (filtered_traces, filtered_traces.map (fun t => t.trace_id))

/-! ### Target validation in `_run_trace_show` -/

/-- `string.hexdigits`. -/
def hexdigits : List Char := "0123456789abcdefABCDEF".data

/-- `_is_hex` (lines 60-63). -/
def _is_hex (value : String) (length : Nat) : Bool :=
  value.length == length && value.data.all (fun c => hexdigits.contains c)

/-- The ASCII uppercase-to-lowercase table of Python `str.lower`
(non-ASCII case mappings are out of scope of this model; they cannot
produce hex digits). -/
def upperToLowerTable : List (Char × Char) :=
  [('A', 'a'), ('B', 'b'), ('C', 'c'), ('D', 'd'), ('E', 'e'), ('F', 'f'),
   ('G', 'g'), ('H', 'h'), ('I', 'i'), ('J', 'j'), ('K', 'k'), ('L', 'l'),
   ('M', 'm'), ('N', 'n'), ('O', 'o'), ('P', 'p'), ('Q', 'q'), ('R', 'r'),
   ('S', 's'), ('T', 't'), ('U', 'u'), ('V', 'v'), ('W', 'w'), ('X', 'x'),
   ('Y', 'y'), ('Z', 'z')]

/-- Python `str.lower`, one character. -/
def pyLowerChar (c : Char) : Char :=
  ((upperToLowerTable.find? (fun p => p.1 = c)).map Prod.snd).getD c

/-- Python `str.lower`. -/
def pyLower (s : String) : String := String.mk (s.data.map pyLowerChar)

/-- 32 zeros (`"0" * 32`, line 801). -/
def zeros32 : String := "00000000000000000000000000000000"

/-- The target-validation block of `_run_trace_show` (lines 793-804):
for a target other than the reserved selectors `"last"`/`"any"`, an
8-character lowered target must be 8 hex characters and not all zeros
(then it becomes the short prefix selector); a 32-character lowered
target must be 32 hex characters and not all zeros (exact match keeps
using the original target); anything else is a validation error.  The
`Except.error` payloads are the `click.ClickException` messages. -/
def validateTarget (target : String) : Except String (Option String) :=
  if target = "last" ∨ target = "any" then Except.ok none
  else
    let tl := pyLower target
    if tl.length = 8 then
      if _is_hex tl 8 = false ∨ tl = "00000000" then
        Except.error "Short trace ID must be 8 hex characters."
      else Except.ok (some tl)
    else if tl.length = 32 then
      if _is_hex tl 32 = false ∨ tl = zeros32 then
        Except.error "Trace ID must be 32 hex characters."
      else Except.ok none
    else Except.error "Trace ID must be 8 or 32 hex characters."

/-- The target-selection part of `_run_trace_show` (lines 793-843),
validation first, then the selection applied to the (already filtered)
trace list: `"last"` keeps the first trace, a full id is matched exactly
against the original target, a short target case-insensitively as a
prefix.  Validation errors are raised before any trace is inspected. -/
def selectTraces (target : String) (traces : List QTrace) : Except String (List QTrace) :=
  match validateTarget target with
  | Except.error e => Except.error e
  | Except.ok shortTarget =>
    let traces :=
      if target = "last" then traces.take 1
      else if target ≠ "any" ∧ shortTarget = none then
        traces.filter (fun tr => tr.trace_id = target)
      else traces
    let traces :=
      match shortTarget with
      | some s => traces.filter (fun tr => strStartsWith (pyLower tr.trace_id) s)
      | none => traces
    Except.ok traces

/-! ### Proof infrastructure: predicted states and store invariants -/

/-- The seen-set of group `k` (empty when the key is absent). -/
def seenIn (st : TraceStore) (k : String) : List String :=
  (Assoc.get? st.seen_spans k).getD []

/-- Span id `sid` is resident in group `k`: it occurs in the group's
retained span sequence or in its seen-set. -/
def ResidentIn (st : TraceStore) (sid k : String) : Prop :=
  (∃ g, Assoc.get? st.traces k = some g ∧ sid ∈ g.spans.map Span.spanId) ∨
    sid ∈ seenIn st k

/-- Run a sequence of `merge_spans` calls against a fresh store of
capacity `cap`. -/
def applyOps (cap : Nat) (ops : List (String × List Span)) : TraceStore :=
  ops.foldl (fun st op => merge_spans st op.1 op.2) (emptyStore cap)

/-- The nonempty span ids of a span batch, in order. -/
def nonemptyIds (spans : List Span) : List String :=
  (spans.map Span.spanId).filter (fun s => s ≠ "")

/-- The nonempty span ids mentioned by a sequence of ingest operations. -/
def opsSpanIds (ops : List (String × List Span)) : List String :=
  (ops.map (fun op => nonemptyIds op.2)).foldr (fun a b => a ++ b) []

/-- Internal well-formedness of a `_TraceStore` state, maintained by
every ingest operation: dict keys are unique, groups and seen-sets share
their key set, every nonempty span id retained in a group's sequence is
in that group's seen-set, and a nonempty span id is in the seen-set of
at most one group. -/
structure StoreInv (st : TraceStore) : Prop where
  nodupTraces : st.traces.keys.Nodup
  nodupSeen : st.seen_spans.keys.Nodup
  keysEq : ∀ k, Assoc.contains st.traces k = Assoc.contains st.seen_spans k
  spansSubSeen : ∀ k g sid, Assoc.get? st.traces k = some g →
    sid ∈ g.spans.map Span.spanId → sid ≠ "" → sid ∈ seenIn st k
  seenUnique : ∀ sid k1 k2, sid ≠ "" → sid ∈ seenIn st k1 → sid ∈ seenIn st k2 → k1 = k2

/-- Every nonempty span id in any seen-set belongs to `P` (the ids
ingested so far). -/
def SeenSub (st : TraceStore) (P : List String) : Prop :=
  ∀ sid k, sid ≠ "" → sid ∈ seenIn st k → sid ∈ P

/-- Predicted store state after ingesting parentless spans with ids
`ids` (all distinct, nonempty) under the single wire trace id `w` into a
fresh store: one group keyed `w` retaining the first
`MAX_SPANS_PER_TRACE` spans, all ids seen and indexed. -/
def rootsState (w : String) (ids : List String) (cap : Nat) : TraceStore :=
  { traces := [(w, { trace_id := w,
                     spans := (ids.take MAX_SPANS_PER_TRACE).map (fun i => { spanId := i, parentSpanId := "" }) })],
    seen_spans := [(w, ids)],
    span_to_group := ids.map (fun i => (i, w)),
    parent_to_group := [], max_traces := cap }

/-- A concrete family of `MAX_SPANS_PER_TRACE + 1` distinct nonempty
span ids (`"a"`, `"aa"`, ...), used to witness the cap behaviour. -/
def capIds : List String :=
  (List.range (MAX_SPANS_PER_TRACE + 1)).map (fun n => String.mk (List.replicate (n + 1) 'a'))

/-- 48 concrete (wire id, span id) pairs: together with two explicit
leading pairs they witness eviction at the default capacity
`MAX_TRACES = 50`. -/
def c6Rest : List (String × String) := [("w03", "s03"), ("w04", "s04"), ("w05", "s05"), ("w06", "s06"), ("w07", "s07"), ("w08", "s08"), ("w09", "s09"), ("w10", "s10"), ("w11", "s11"), ("w12", "s12"), ("w13", "s13"), ("w14", "s14"), ("w15", "s15"), ("w16", "s16"), ("w17", "s17"), ("w18", "s18"), ("w19", "s19"), ("w20", "s20"), ("w21", "s21"), ("w22", "s22"), ("w23", "s23"), ("w24", "s24"), ("w25", "s25"), ("w26", "s26"), ("w27", "s27"), ("w28", "s28"), ("w29", "s29"), ("w30", "s30"), ("w31", "s31"), ("w32", "s32"), ("w33", "s33"), ("w34", "s34"), ("w35", "s35"), ("w36", "s36"), ("w37", "s37"), ("w38", "s38"), ("w39", "s39"), ("w40", "s40"), ("w41", "s41"), ("w42", "s42"), ("w43", "s43"), ("w44", "s44"), ("w45", "s45"), ("w46", "s46"), ("w47", "s47"), ("w48", "s48"), ("w49", "s49"), ("w50", "s50")]

/-- Predicted store state after ingesting one parentless span per wire
trace id: `pairs` lists (wire id, span id) in ingest order, giving one
singleton group per pair. -/
def groupsState (pairs : List (String × String)) (cap : Nat) : TraceStore :=
  { traces := pairs.map (fun pr => (pr.1, { trace_id := pr.1,
                                            spans := [{ spanId := pr.2, parentSpanId := "" }] })),
    seen_spans := pairs.map (fun pr => (pr.1, [pr.2])),
    span_to_group := pairs.map (fun pr => (pr.2, pr.1)),
    parent_to_group := [], max_traces := cap }

/-! ### Dictionary lemmas -/

theorem Assoc.get?_set_self {α : Type} (d : Assoc α) (k : String) (v : α) :
    Assoc.get? (Assoc.set d k v) k = some v := by
  induction d with
  | nil => simp [Assoc.set, Assoc.get?]
  | cons p rest ih =>
    rcases p with ⟨a, b⟩
    by_cases h : a = k <;> simp [Assoc.set, Assoc.get?, h, ih]

theorem Assoc.get?_set_ne {α : Type} (d : Assoc α) (k k' : String) (v : α)
    (h : k' ≠ k) : Assoc.get? (Assoc.set d k v) k' = Assoc.get? d k' := by
  induction d with
  | nil => simp [Assoc.set, Assoc.get?, Ne.symm h]
  | cons p rest ih =>
    rcases p with ⟨a, b⟩
    by_cases ha : a = k
    · subst ha
      simp [Assoc.set, Assoc.get?, Ne.symm h, h]
    · by_cases ha' : a = k' <;> simp [Assoc.set, Assoc.get?, ha, ha', ih, h]

theorem Assoc.get?_erase {α : Type} (d : Assoc α) (k k' : String) :
    Assoc.get? (Assoc.erase d k') k = if k = k' then none else Assoc.get? d k := by
  induction d with
  | nil => simp [Assoc.erase, Assoc.get?]
  | cons p rest ih =>
    rcases p with ⟨a, b⟩
    by_cases hk : k = k'
    · subst hk
      by_cases ha : a = k <;> simp_all [Assoc.erase, Assoc.get?]
    · by_cases ha : a = k' <;> by_cases hak : a = k <;>
        simp_all [Assoc.erase, Assoc.get?]

theorem Assoc.get?_append_of_none {α : Type} (l1 l2 : Assoc α) (k : String)
    (h : Assoc.get? l1 k = none) : Assoc.get? (l1 ++ l2) k = Assoc.get? l2 k := by
  induction l1 with
  | nil => simp
  | cons p rest ih =>
    rcases p with ⟨a, b⟩
    by_cases ha : a = k <;> simp_all [Assoc.get?]

theorem Assoc.get?_append_of_some {α : Type} (l1 l2 : Assoc α) (k : String) (v : α)
    (h : Assoc.get? l1 k = some v) : Assoc.get? (l1 ++ l2) k = some v := by
  induction l1 with
  | nil => simp [Assoc.get?] at h
  | cons p rest ih =>
    rcases p with ⟨a, b⟩
    by_cases ha : a = k <;> simp_all [Assoc.get?]

theorem Assoc.contains_eq_isSome {α : Type} (d : Assoc α) (k : String) :
    Assoc.contains d k = (Assoc.get? d k).isSome := by
  induction d with
  | nil => simp [Assoc.contains, Assoc.get?]
  | cons p rest ih =>
    rcases p with ⟨a, b⟩
    by_cases ha : a = k <;> simp [Assoc.contains, Assoc.get?, ha, ih]

theorem Assoc.get?_moveToEnd {α : Type} (d : Assoc α) (k k' : String) :
    Assoc.get? (Assoc.moveToEnd d k') k = Assoc.get? d k := by
  unfold Assoc.moveToEnd
  cases hv : Assoc.get? d k' with
  | none => rfl
  | some v =>
    by_cases hk : k = k'
    · subst hk
      rw [Assoc.get?_append_of_none _ _ _ (by simp [Assoc.get?_erase])]
      simp [Assoc.get?, hv]
    · have h1 : Assoc.get? (Assoc.erase d k') k = Assoc.get? d k := by
        rw [Assoc.get?_erase]
        simp [hk]
      cases hg : Assoc.get? d k with
      | none =>
        rw [Assoc.get?_append_of_none _ _ _ (h1.trans hg)]
        simp [Assoc.get?, Ne.symm hk]
      | some w => exact Assoc.get?_append_of_some _ _ _ _ (h1.trans hg)

theorem Assoc.get?_none_of_erase_l {α : Type} (d : Assoc α) (k k' : String)
    (h : Assoc.get? d k = none) : Assoc.get? (Assoc.erase d k') k = none := by
  rw [Assoc.get?_erase]
  by_cases hk : k = k' <;> simp [hk, h]

/-- The index-purging fold of `_evict_oldest` never resurrects a
binding: a key absent from both accumulator halves stays absent. -/
theorem get?_foldl_erase_pair_none (spans : List Span) (m : Assoc String × Assoc String)
    (sid : String) (h1 : Assoc.get? m.1 sid = none) (h2 : Assoc.get? m.2 sid = none) :
    Assoc.get? (spans.foldl
        (fun (acc : Assoc String × Assoc String) span =>
          (Assoc.erase acc.1 span.spanId, Assoc.erase acc.2 span.spanId)) m).1 sid = none ∧
    Assoc.get? (spans.foldl
        (fun (acc : Assoc String × Assoc String) span =>
          (Assoc.erase acc.1 span.spanId, Assoc.erase acc.2 span.spanId)) m).2 sid = none := by
  induction spans generalizing m with
  | nil => exact ⟨h1, h2⟩
  | cons sp rest ih =>
    exact ih _ (Assoc.get?_none_of_erase_l _ _ _ h1) (Assoc.get?_none_of_erase_l _ _ _ h2)

/-- After the index-purging fold of `_evict_oldest`, both halves of the
accumulator lose every binding keyed by a span id of the iterated list. -/
theorem get?_foldl_erase_pair (spans : List Span) (m : Assoc String × Assoc String)
    (sid : String) (h : sid ∈ spans.map Span.spanId) :
    Assoc.get? (spans.foldl
        (fun (acc : Assoc String × Assoc String) span =>
          (Assoc.erase acc.1 span.spanId, Assoc.erase acc.2 span.spanId)) m).1 sid = none ∧
    Assoc.get? (spans.foldl
        (fun (acc : Assoc String × Assoc String) span =>
          (Assoc.erase acc.1 span.spanId, Assoc.erase acc.2 span.spanId)) m).2 sid = none := by
  induction spans generalizing m with
  | nil => simp at h
  | cons sp rest ih =>
    rw [List.map_cons] at h
    rcases List.mem_cons.mp h with hhead | htail
    · refine get?_foldl_erase_pair_none rest _ sid ?_ ?_ <;>
        · rw [hhead, Assoc.get?_erase]
          simp
    · exact ih _ htail

/-! ### C1: forward and backward merge across wire trace ids -/

/-- C1: from an empty store, spans `A = (id a, no parent, wire w1)` and
`B = (id b, parent a, wire w2)` with `a`, `b` nonempty and distinct and
`w1 ≠ w2`, ingested in either order, end up in a single group holding
both spans; when `A` is ingested first the group is keyed by `w1`. -/
theorem C1_merge_either_order (a b w1 w2 : String) (ha : a ≠ "") (hb : b ≠ "")
    (hab : a ≠ b) (hw : w1 ≠ w2) :
    (merge_spans (merge_spans (emptyStore MAX_TRACES) w1
          [{ spanId := a, parentSpanId := "" }])
        w2 [{ spanId := b, parentSpanId := a }]).traces
      = [(w1, { trace_id := w1,
                spans := [{ spanId := a, parentSpanId := "" },
                          { spanId := b, parentSpanId := a }] })] ∧
    (merge_spans (merge_spans (emptyStore MAX_TRACES) w2
          [{ spanId := b, parentSpanId := a }])
        w1 [{ spanId := a, parentSpanId := "" }]).traces
      = [(w2, { trace_id := w2,
                spans := [{ spanId := b, parentSpanId := a },
                          { spanId := a, parentSpanId := "" }] })] := by
  constructor <;>
    simp [merge_spans, mergeSpansOne, resolveGroupKey, ensureGroup, insertSpan,
      mergeGroups, evictOldest, emptyStore, Assoc.get?, Assoc.set, Assoc.erase,
      Assoc.contains, Assoc.moveToEnd, MAX_TRACES, MAX_SPANS_PER_TRACE,
      ha, hb, hab, hw, Ne.symm hab, Ne.symm hw]

/-- Witness for C1 at concrete identifiers. -/
theorem C1_merge_either_order_witness :
    (("a0" : String) ≠ "") ∧ (("b0" : String) ≠ "") ∧ (("a0" : String) ≠ "b0") ∧
    (("w1" : String) ≠ "w2") ∧
    ((merge_spans (merge_spans (emptyStore MAX_TRACES) "w1"
          [{ spanId := "a0", parentSpanId := "" }])
        "w2" [{ spanId := "b0", parentSpanId := "a0" }]).traces
      = [("w1", { trace_id := "w1",
                  spans := [{ spanId := "a0", parentSpanId := "" },
                            { spanId := "b0", parentSpanId := "a0" }] })] ∧
    (merge_spans (merge_spans (emptyStore MAX_TRACES) "w2"
          [{ spanId := "b0", parentSpanId := "a0" }])
        "w1" [{ spanId := "a0", parentSpanId := "" }]).traces
      = [("w2", { trace_id := "w2",
                  spans := [{ spanId := "b0", parentSpanId := "a0" },
                            { spanId := "a0", parentSpanId := "" }] })]) :=
  ⟨by decide, by decide, by decide, by decide,
    C1_merge_either_order "a0" "b0" "w1" "w2" (by decide) (by decide) (by decide) (by decide)⟩

/-! ### C2: stale index entries survive eviction (counterexample), and
what eviction does purge -/

/-- C2 counterexample: with capacity 1, ingest `B (id=b, parent=a)` under
wire id `w1`, then `C (id=c)` under `w2`.  Creating `w2` evicts `w1`,
but the awaited-parent entry `a → w1` recorded for `B`'s never-arrived
parent survives eviction and now refers to a group key absent from the
store — refuting the claim that after every operation all index entries
refer to present group keys. -/
theorem C2_counterexample :
    Assoc.get? (merge_spans (merge_spans (emptyStore 1) "w1"
        [{ spanId := "b", parentSpanId := "a" }])
      "w2" [{ spanId := "c", parentSpanId := "" }]).parent_to_group "a" = some "w1" ∧
    Assoc.contains (merge_spans (merge_spans (emptyStore 1) "w1"
        [{ spanId := "b", parentSpanId := "a" }])
      "w2" [{ spanId := "c", parentSpanId := "" }]).traces "w1" = false := by
  constructor <;> decide

/-! ### C3: a span id can become resident in two groups (counterexample) -/

/-- C3 counterexample: ingest `X (id=x)` under `w1`, `P (id=p)` under
`w2`, then `X` again as `(id=x, parent=p)` under `w3`.  The parent link
routes the re-arrived `x` into `w2` while its first copy stays in `w1`:
the nonempty span id `x` is now in the span sequence and seen-set of two
different groups at once, refuting the claimed invariant. -/
theorem C3_counterexample :
    Assoc.get? (merge_spans (merge_spans (merge_spans (emptyStore MAX_TRACES) "w1"
          [{ spanId := "x", parentSpanId := "" }])
        "w2" [{ spanId := "p", parentSpanId := "" }])
      "w3" [{ spanId := "x", parentSpanId := "p" }]).traces "w1"
      = some { trace_id := "w1", spans := [{ spanId := "x", parentSpanId := "" }] } ∧
    Assoc.get? (merge_spans (merge_spans (merge_spans (emptyStore MAX_TRACES) "w1"
          [{ spanId := "x", parentSpanId := "" }])
        "w2" [{ spanId := "p", parentSpanId := "" }])
      "w3" [{ spanId := "x", parentSpanId := "p" }]).traces "w2"
      = some { trace_id := "w2", spans := [{ spanId := "p", parentSpanId := "" },
                                           { spanId := "x", parentSpanId := "p" }] } ∧
    Assoc.get? (merge_spans (merge_spans (merge_spans (emptyStore MAX_TRACES) "w1"
          [{ spanId := "x", parentSpanId := "" }])
        "w2" [{ spanId := "p", parentSpanId := "" }])
      "w3" [{ spanId := "x", parentSpanId := "p" }]).seen_spans "w1" = some ["x"] ∧
    Assoc.get? (merge_spans (merge_spans (merge_spans (emptyStore MAX_TRACES) "w1"
          [{ spanId := "x", parentSpanId := "" }])
        "w2" [{ spanId := "p", parentSpanId := "" }])
      "w3" [{ spanId := "x", parentSpanId := "p" }]).seen_spans "w2" = some ["p", "x"] := by
  refine ⟨?_, ?_, ?_, ?_⟩ <;> decide

/-! ### C4: the dedup guarantee fails on re-delivery after a backward link -/

/-- C4 evaluation at the failing input: ingest `C (id=c, parent=b)` under
`w1`, then `B (id=b)` under `w2` twice.  The first `B` is routed into
`w1` through the awaited-parent entry (which is popped); the identical
second `B` finds no link, falls back to its wire id `w2`, creates a new
group and is retained there as well: two retained copies of span id `b`,
and the second ingestion re-indexes `b` to `w2` instead of stopping at
the seen-set. -/
theorem C4_code_bug_eval :
    Assoc.get? (merge_spans (merge_spans (merge_spans (emptyStore MAX_TRACES) "w1"
          [{ spanId := "c", parentSpanId := "b" }])
        "w2" [{ spanId := "b", parentSpanId := "" }])
      "w2" [{ spanId := "b", parentSpanId := "" }]).traces "w1"
      = some { trace_id := "w1", spans := [{ spanId := "c", parentSpanId := "b" },
                                           { spanId := "b", parentSpanId := "" }] } ∧
    Assoc.get? (merge_spans (merge_spans (merge_spans (emptyStore MAX_TRACES) "w1"
          [{ spanId := "c", parentSpanId := "b" }])
        "w2" [{ spanId := "b", parentSpanId := "" }])
      "w2" [{ spanId := "b", parentSpanId := "" }]).traces "w2"
      = some { trace_id := "w2", spans := [{ spanId := "b", parentSpanId := "" }] } ∧
    Assoc.get? (merge_spans (merge_spans (merge_spans (emptyStore MAX_TRACES) "w1"
          [{ spanId := "c", parentSpanId := "b" }])
        "w2" [{ spanId := "b", parentSpanId := "" }])
      "w2" [{ spanId := "b", parentSpanId := "" }]).span_to_group "b" = some "w2" := by
  refine ⟨?_, ?_, ?_⟩ <;> decide

/-! ### C9: empty wire trace ids are dropped, empty span ids are retained -/

/-- C9 counterexample: a span with a nonempty wire trace id but an empty
span id, ingested into an empty store, *is* retained in its group's span
sequence (it is appended without deduplication or indexing), refuting
the claim that such a span is dropped. -/
theorem C9_counterexample :
    Assoc.get? (exportSpans (emptyStore MAX_TRACES)
        [{ traceId := "w", spanId := "", parentSpanId := "" }]).traces "w"
      = some { trace_id := "w", spans := [{ spanId := "", parentSpanId := "" }] } := by
  decide

/-- C2 (amended): eviction removes the oldest group together with its
seen-set and purges the `span_id`/`parent_span_id` index entries keyed
by the span ids of the evicted group's *retained* spans (entries keyed
by ids only recorded beyond the retention cap, or by awaited parent ids
that never arrived as spans, are not iterated and can survive). -/
theorem C2_evict_purges_retained (st : TraceStore) (k : String) (g : Group)
    (rest : List (String × Group)) (htr : st.traces = (k, g) :: rest) :
    (evictOldest st).traces = rest ∧
    Assoc.get? (evictOldest st).seen_spans k = none ∧
    ∀ s ∈ g.spans,
      Assoc.get? (evictOldest st).span_to_group s.spanId = none ∧
      Assoc.get? (evictOldest st).parent_to_group s.spanId = none := by
  have hev : evictOldest st = { st with
      traces := rest,
      seen_spans := Assoc.erase st.seen_spans k,
      span_to_group := (g.spans.foldl
        (fun (acc : Assoc String × Assoc String) span =>
          (Assoc.erase acc.1 span.spanId, Assoc.erase acc.2 span.spanId))
        (st.span_to_group, st.parent_to_group)).1,
      parent_to_group := (g.spans.foldl
        (fun (acc : Assoc String × Assoc String) span =>
          (Assoc.erase acc.1 span.spanId, Assoc.erase acc.2 span.spanId))
        (st.span_to_group, st.parent_to_group)).2 } := by
    unfold evictOldest
    rw [htr]
  rw [hev]
  refine ⟨rfl, ?_, ?_⟩
  · rw [Assoc.get?_erase]
    simp
  · intro s hs
    exact get?_foldl_erase_pair g.spans _ s.spanId (List.mem_map_of_mem _ hs)

/-- Witness for the amended C2 at a concrete store. -/
theorem C2_evict_purges_retained_witness :
    (⟨[("w1", ⟨"w1", [⟨"b", "a"⟩]⟩)], [("w1", ["b"])], [("b", "w1")], [("a", "w1"), ("b", "w1")], 1⟩ :
        TraceStore).traces
      = ("w1", (⟨"w1", [⟨"b", "a"⟩]⟩ : Group)) :: [] ∧
    ((evictOldest ⟨[("w1", ⟨"w1", [⟨"b", "a"⟩]⟩)], [("w1", ["b"])], [("b", "w1")], [("a", "w1"), ("b", "w1")], 1⟩).traces = [] ∧
      Assoc.get? (evictOldest ⟨[("w1", ⟨"w1", [⟨"b", "a"⟩]⟩)], [("w1", ["b"])], [("b", "w1")], [("a", "w1"), ("b", "w1")], 1⟩).seen_spans "w1" = none ∧
      ∀ s ∈ (⟨"w1", [⟨"b", "a"⟩]⟩ : Group).spans,
        Assoc.get? (evictOldest ⟨[("w1", ⟨"w1", [⟨"b", "a"⟩]⟩)], [("w1", ["b"])], [("b", "w1")], [("a", "w1"), ("b", "w1")], 1⟩).span_to_group s.spanId = none ∧
        Assoc.get? (evictOldest ⟨[("w1", ⟨"w1", [⟨"b", "a"⟩]⟩)], [("w1", ["b"])], [("b", "w1")], [("a", "w1"), ("b", "w1")], 1⟩).parent_to_group s.spanId = none) :=
  ⟨rfl, C2_evict_purges_retained _ "w1" _ [] rfl⟩

/-! ### C7: the time-window filter -/

/-- C7 counterexample: `"0m"` is of the form `<integer><unit>` with a
valid unit, so per the claim the cutoff is `now - 0` and a span starting
before `now` must be dropped — but the code's truthiness test on the
parsed `0` disables the window entirely and the trace is retained
unchanged. -/
theorem C7_counterexample :
    _parse_since_seconds (some "0m") = some 0 ∧
    _safe_int "5" < 1000 - 0 * 1000000000 ∧
    _filter_traces [{ trace_id := "t1", spans := [{ startTimeUnixNano := "5", attributes := [] }] }]
        [] [] (_parse_since_seconds (some "0m")) 1000
      = ([{ trace_id := "t1", spans := [{ startTimeUnixNano := "5", attributes := [] }] }], ["t1"]) := by
  refine ⟨?_, ?_, ?_⟩ <;> decide

/-- The trace loop of `_filter_traces`, as a `filterMap`: each trace's
span list is rewritten by `g` and the trace is kept iff the result is
nonempty. -/
theorem filter_fold_eq_filterMap (g : QTrace → List QSpan) (traces : List QTrace)
    (acc : List QTrace) :
    traces.foldl (fun acc trace =>
        if g trace = [] then acc else acc ++ [{ trace with spans := g trace }]) acc
      = acc ++ traces.filterMap (fun trace =>
          if g trace = [] then none else some { trace with spans := g trace }) := by
  induction traces generalizing acc with
  | nil => simp
  | cons tr rest ih => by_cases h : g tr = [] <;> simp [h, ih]

/-- C7 (amended): a since-string parsed to a *nonzero* duration `q`
filters spans to those starting at or after `now - q` seconds and drops
traces with no surviving spans; a parse failure, or a parsed duration of
zero (e.g. `"0m"`), applies no time filtering (only the unconditional
drop of already-spanless traces); the call is total either way. -/
theorem C7_time_window (traces : List QTrace) (v : Option String) (now : Int) :
    (∀ q : Int, _parse_since_seconds v = some q → q ≠ 0 →
      _filter_traces traces [] [] (_parse_since_seconds v) now
        = (traces.filterMap (fun tr =>
            if tr.spans.filter (fun sp => _safe_int sp.startTimeUnixNano ≥ now - q * 1000000000) = []
            then none
            else some (⟨tr.trace_id, tr.spans.filter (fun sp => _safe_int sp.startTimeUnixNano ≥ now - q * 1000000000)⟩ : QTrace)),
           (traces.filterMap (fun tr =>
            if tr.spans.filter (fun sp => _safe_int sp.startTimeUnixNano ≥ now - q * 1000000000) = []
            then none
            else some (⟨tr.trace_id, tr.spans.filter (fun sp => _safe_int sp.startTimeUnixNano ≥ now - q * 1000000000)⟩ : QTrace))).map
              (fun t => t.trace_id))) ∧
    (_parse_since_seconds v = none ∨ _parse_since_seconds v = some 0 →
      _filter_traces traces [] [] (_parse_since_seconds v) now
        = (traces.filter (fun tr => ¬ tr.spans = []),
           (traces.filter (fun tr => ¬ tr.spans = [])).map (fun t => t.trace_id))) := by
  constructor
  · intro q hparse hq
    rw [hparse]
    unfold _filter_traces
    simp only [hq, ne_eq, not_false_eq_true, if_true, not_true, ite_false, if_false,
      ite_true, not_true_eq_false]
    rw [filter_fold_eq_filterMap
      (fun tr => tr.spans.filter (fun sp => _safe_int sp.startTimeUnixNano ≥ now - q * 1000000000))]
    simp
  · intro hcase
    have hnone : (match _parse_since_seconds v with
        | some s => if s ≠ 0 then some (now - s * 1000000000) else none
        | none => none) = (none : Option Int) := by
      rcases hcase with h | h <;> rw [h] <;> simp
    have hconv : traces.filterMap (fun tr => if tr.spans = [] then none
          else some (⟨tr.trace_id, tr.spans⟩ : QTrace))
        = traces.filter (fun tr => ¬ tr.spans = []) := by
      induction traces with
      | nil => rfl
      | cons t rest ih =>
        rcases t with ⟨tid, tsp⟩
        by_cases h : tsp = [] <;> simp [h, ih]
    unfold _filter_traces
    rw [hnone]
    simp only [ne_eq, not_true, not_true_eq_false, if_false, ite_false,
      eq_self_iff_true, if_true, ite_true]
    rw [filter_fold_eq_filterMap (fun tr => tr.spans)]
    rw [List.nil_append, hconv]

/-- Witness for the amended C7: a 2-minute window at `now = 130e9` drops
a span starting at 5; the unparsable `"junk"` leaves the trace alone. -/
theorem C7_time_window_witness :
    _parse_since_seconds (some "2m") = some 120 ∧ (120 : Int) ≠ 0 ∧
    _filter_traces [{ trace_id := "t1", spans := [{ startTimeUnixNano := "5", attributes := [] }] }]
        [] [] (_parse_since_seconds (some "2m")) 130000000000 = ([], []) ∧
    _parse_since_seconds (some "junk") = none ∧
    _filter_traces [{ trace_id := "t1", spans := [{ startTimeUnixNano := "5", attributes := [] }] }]
        [] [] (_parse_since_seconds (some "junk")) 130000000000
      = ([{ trace_id := "t1", spans := [{ startTimeUnixNano := "5", attributes := [] }] }], ["t1"]) :=
  ⟨by decide, by decide,
    ((C7_time_window [{ trace_id := "t1", spans := [{ startTimeUnixNano := "5", attributes := [] }] }]
        (some "2m") 130000000000).1 120 (by decide) (by decide)).trans (by decide),
    by decide,
    ((C7_time_window [{ trace_id := "t1", spans := [{ startTimeUnixNano := "5", attributes := [] }] }]
        (some "junk") 130000000000).2 (Or.inl (by decide))).trans (by decide)⟩

/-! ### C8: the `*`-pattern matcher versus its specification -/

/-- C8 evaluation at the failing input: per the claim (fragments `a`,`b`
of `a*b` appear in order in `abcb` with `a` at the start and `b` at the
end), the key `abcb` matches `a*b` — and `fnmatch`, used by
`_run_trace_show` itself on the same patterns, agrees — but
`_matches_pattern` consumes the last fragment at its *first* occurrence
and then requires nothing to remain, so it rejects. -/
theorem C8_code_bug_eval :
    _matches_pattern "abcb" "a*b" = false ∧ specFragMatches "abcb" "a*b" = true := by
  constructor <;> decide

/-! ### C9: malformed ingestion data (amended) -/

/-- C9 (amended): a span with an empty wire trace id is dropped before
the store is touched (nothing is grouped or indexed and the batch
continues), but a span with an empty span id on a group-creating span is
*not* dropped: it is retained in the new group's span sequence, while
never entering the seen-set or the `span_id` index. -/
theorem C9_empty_ids (st : TraceStore) (sid0 p0 w p : String) (others : List WireSpan)
    (hw : w ≠ "") (hp : p = "" ∨ Assoc.get? st.span_to_group p = none)
    (hnew : Assoc.contains st.traces w = false)
    (hcap : st.traces.length < st.max_traces) :
    exportSpans st ({ traceId := "", spanId := sid0, parentSpanId := p0 } :: others)
      = exportSpans st others ∧
    Assoc.get? (mergeSpansOne st w { spanId := "", parentSpanId := p }).traces w
      = some { trace_id := w, spans := [{ spanId := "", parentSpanId := p }] } ∧
    Assoc.get? (mergeSpansOne st w { spanId := "", parentSpanId := p }).seen_spans w
      = some [] ∧
    (mergeSpansOne st w { spanId := "", parentSpanId := p }).span_to_group
      = st.span_to_group := by
  have hres : resolveGroupKey st w { spanId := "", parentSpanId := p } = (w, st) := by
    unfold resolveGroupKey
    rcases hp with hp | hp
    · simp [hp]
    · by_cases hpe : p = "" <;> simp [hp, hpe]
  have hget : Assoc.get? st.traces w = none := by
    cases hg : Assoc.get? st.traces w with
    | none => rfl
    | some v =>
      rw [Assoc.contains_eq_isSome, hg] at hnew
      simp at hnew
  have hens : ensureGroup st w = { st with
      traces := st.traces ++ [(w, { trace_id := w, spans := [] })],
      seen_spans := Assoc.set st.seen_spans w [] } := by
    unfold ensureGroup
    rw [hnew]
    simp [Nat.not_le.mpr hcap]
  have happ : Assoc.get? (st.traces ++ [(w, { trace_id := w, spans := [] })]) w
      = some { trace_id := w, spans := [] } := by
    rw [Assoc.get?_append_of_none _ _ _ hget]
    simp [Assoc.get?]
  refine ⟨by simp [exportSpans], ?_⟩
  have hone : mergeSpansOne st w { spanId := "", parentSpanId := p }
      = insertSpan (ensureGroup st w) w { spanId := "", parentSpanId := p } := by
    unfold mergeSpansOne
    rw [hres]
  rw [hone, hens]
  unfold insertSpan
  simp only [Assoc.get?_set_self, Option.getD_some]
  by_cases hlink : p ≠ "" ∧ Assoc.contains st.span_to_group p = false <;>
    simp [hlink, happ, MAX_SPANS_PER_TRACE, Assoc.get?_set_self, Assoc.get?_set_ne]

/-- Witness for the amended C9 at a concrete store. -/
theorem C9_empty_ids_witness :
    (("w" : String) ≠ "") ∧
    (("pp" : String) = "" ∨ Assoc.get? (emptyStore 50).span_to_group "pp" = none) ∧
    Assoc.contains (emptyStore 50).traces "w" = false ∧
    (emptyStore 50).traces.length < (emptyStore 50).max_traces ∧
    (exportSpans (emptyStore 50) ({ traceId := "", spanId := "s0", parentSpanId := "q0" } ::
        [{ traceId := "w2", spanId := "z", parentSpanId := "" }])
      = exportSpans (emptyStore 50) [{ traceId := "w2", spanId := "z", parentSpanId := "" }] ∧
    Assoc.get? (mergeSpansOne (emptyStore 50) "w" { spanId := "", parentSpanId := "pp" }).traces "w"
      = some { trace_id := "w", spans := [{ spanId := "", parentSpanId := "pp" }] } ∧
    Assoc.get? (mergeSpansOne (emptyStore 50) "w" { spanId := "", parentSpanId := "pp" }).seen_spans "w"
      = some [] ∧
    (mergeSpansOne (emptyStore 50) "w" { spanId := "", parentSpanId := "pp" }).span_to_group
      = (emptyStore 50).span_to_group) :=
  ⟨by decide, Or.inr (by decide), by decide, by decide,
    C9_empty_ids (emptyStore 50) "s0" "q0" "w" "pp"
      [{ traceId := "w2", spanId := "z", parentSpanId := "" }]
      (by decide) (Or.inr (by decide)) (by decide) (by decide)⟩

/-! ### C10: target validation and resolution -/

theorem contains_lookup (c : Char) (l : List (Char × Char))
    (htab : ∀ p ∈ l, hexdigits.contains p.2 = hexdigits.contains p.1) :
    hexdigits.contains (((l.find? (fun p => p.1 = c)).map Prod.snd).getD c)
      = hexdigits.contains c := by
  induction l with
  | nil => rfl
  | cons p rest ih =>
    by_cases hp : p.1 = c
    · rw [show (p :: rest).find? (fun q => q.1 = c) = some p from by
        simp [List.find?, hp]]
      show hexdigits.contains p.2 = hexdigits.contains c
      rw [htab p (List.mem_cons_self _ _), hp]
    · rw [show (p :: rest).find? (fun q => q.1 = c) = rest.find? (fun q => q.1 = c) from by
        simp [List.find?, hp]]
      exact ih (fun q hq => htab q (List.mem_cons_of_mem _ hq))

theorem pyLowerChar_hex (c : Char) :
    hexdigits.contains (pyLowerChar c) = hexdigits.contains c :=
  contains_lookup c upperToLowerTable (by decide)

theorem pyLower_length (s : String) : (pyLower s).length = s.length := by
  show (s.data.map pyLowerChar).length = s.data.length
  exact List.length_map _ _

theorem is_hex_pyLower (t : String) (n : Nat) : _is_hex (pyLower t) n = _is_hex t n := by
  unfold _is_hex
  rw [pyLower_length]
  congr 1
  show (t.data.map pyLowerChar).all (fun c => hexdigits.contains c)
      = t.data.all (fun c => hexdigits.contains c)
  rw [List.all_map]
  induction t.data with
  | nil => rfl
  | cons c rest ih =>
    rw [List.all_cons, List.all_cons]
    rw [show ((fun c => hexdigits.contains c) ∘ pyLowerChar) c
        = hexdigits.contains (pyLowerChar c) from rfl]
    rw [pyLowerChar_hex, ih]

theorem is_hex_length (t : String) (n : Nat) (h : _is_hex t n = true) : t.length = n := by
  unfold _is_hex at h
  simp only [Bool.and_eq_true, beq_iff_eq] at h
  exact h.1

theorem selectTraces_error (t : String) (traces : List QTrace) (msg : String)
    (h : validateTarget t = Except.error msg) :
    selectTraces t traces = Except.error msg := by
  unfold selectTraces
  rw [h]

theorem selectTraces_ok_short (t : String) (traces : List QTrace) (s : String)
    (h : validateTarget t = Except.ok (some s)) (hlast : t ≠ "last") :
    selectTraces t traces
      = Except.ok (traces.filter (fun tr => strStartsWith (pyLower tr.trace_id) s)) := by
  unfold selectTraces
  rw [h]
  simp [hlast]

theorem selectTraces_ok_full (t : String) (traces : List QTrace)
    (h : validateTarget t = Except.ok none) (hlast : t ≠ "last") (hany : t ≠ "any") :
    selectTraces t traces = Except.ok (traces.filter (fun tr => tr.trace_id = t)) := by
  unfold selectTraces
  rw [h]
  simp [hlast, hany]

/-- C10: for a user-supplied target other than the reserved selectors
`"last"`/`"any"`: the 8-character all-zero token and the 32-character
all-zero token are rejected with a validation error; a token that is
neither 8 nor 32 hex characters is rejected with a validation error (in
all three cases before any trace is inspected, for every trace list);
every other 8-hex token selects by case-insensitive short-id prefix, and
every other 32-hex token selects by exact trace-id match. -/
theorem C10_target_resolution (t : String) (traces : List QTrace)
    (hlast : t ≠ "last") (hany : t ≠ "any") :
    (t = "00000000" →
      selectTraces t traces = Except.error "Short trace ID must be 8 hex characters.") ∧
    (t = zeros32 →
      selectTraces t traces = Except.error "Trace ID must be 32 hex characters.") ∧
    (_is_hex t 8 = false → _is_hex t 32 = false →
      ∃ msg, selectTraces t traces = Except.error msg) ∧
    (_is_hex t 8 = true → pyLower t ≠ "00000000" →
      selectTraces t traces
        = Except.ok (traces.filter (fun tr => strStartsWith (pyLower tr.trace_id) (pyLower t)))) ∧
    (_is_hex t 32 = true → pyLower t ≠ zeros32 →
      selectTraces t traces = Except.ok (traces.filter (fun tr => tr.trace_id = t))) := by
  refine ⟨?_, ?_, ?_, ?_, ?_⟩
  · intro ht
    subst ht
    exact selectTraces_error _ _ _ (by decide)
  · intro ht
    subst ht
    exact selectTraces_error _ _ _ (by decide)
  · intro h8 h32
    by_cases hl8 : (pyLower t).length = 8
    · refine ⟨"Short trace ID must be 8 hex characters.", selectTraces_error _ _ _ ?_⟩
      unfold validateTarget
      simp [hlast, hany, hl8, is_hex_pyLower, h8]
    · by_cases hl32 : (pyLower t).length = 32
      · refine ⟨"Trace ID must be 32 hex characters.", selectTraces_error _ _ _ ?_⟩
        unfold validateTarget
        simp [hlast, hany, hl8, hl32, is_hex_pyLower, h32]
      · refine ⟨"Trace ID must be 8 or 32 hex characters.", selectTraces_error _ _ _ ?_⟩
        unfold validateTarget
        simp [hlast, hany, hl8, hl32]
  · intro hhex hnz
    refine selectTraces_ok_short t traces (pyLower t) ?_ hlast
    unfold validateTarget
    simp [hlast, hany, pyLower_length, is_hex_length t 8 hhex, is_hex_pyLower, hhex, hnz]
  · intro hhex hnz
    refine selectTraces_ok_full t traces ?_ hlast hany
    have hlen : (pyLower t).length = 32 := by
      rw [pyLower_length]
      exact is_hex_length t 32 hhex
    unfold validateTarget
    simp [hlast, hany, hlen, is_hex_pyLower, hhex, hnz]

/-- Witness for C10: the mixed-case short target `"DEADBEEF"` resolves
to a case-insensitive prefix match. -/
theorem C10_target_resolution_witness :
    ("DEADBEEF" : String) ≠ "last" ∧ ("DEADBEEF" : String) ≠ "any" ∧
    _is_hex "DEADBEEF" 8 = true ∧ pyLower "DEADBEEF" ≠ "00000000" ∧
    selectTraces "DEADBEEF" [⟨"deadbeefcafe0000deadbeefcafe0000", []⟩]
      = Except.ok (([⟨"deadbeefcafe0000deadbeefcafe0000", []⟩] : List QTrace).filter
          (fun tr => strStartsWith (pyLower tr.trace_id) (pyLower "DEADBEEF"))) :=
  ⟨by decide, by decide, by decide, by decide,
    (C10_target_resolution "DEADBEEF" [⟨"deadbeefcafe0000deadbeefcafe0000", []⟩]
      (by decide) (by decide)).2.2.2.1 (by decide) (by decide)⟩

/-! ### C5: per-group span cap with full seen/index coverage -/

theorem Assoc.contains_map_const_false (ids : List String) (w x : String) (h : x ∉ ids) :
    Assoc.contains (ids.map (fun i => (i, w))) x = false := by
  induction ids with
  | nil => rfl
  | cons i rest ih =>
    simp only [List.map_cons, Assoc.contains]
    have hix : i ≠ x := fun he => h (he ▸ List.mem_cons_self _ _)
    rw [if_neg hix]
    exact ih (fun hm => h (List.mem_cons_of_mem _ hm))

theorem Assoc.get?_map_const (ids : List String) (w x : String) (h : x ∈ ids) :
    Assoc.get? (ids.map (fun i => (i, w))) x = some w := by
  induction ids with
  | nil => cases h
  | cons i rest ih =>
    by_cases hx : i = x
    · simp [Assoc.get?, hx]
    · have hr : x ∈ rest := by
        rcases List.mem_cons.mp h with h1 | h1
        · exact absurd h1.symm hx
        · exact h1
      simp [Assoc.get?, hx, ih hr]

theorem Assoc.set_fresh {α : Type} (l : Assoc α) (k : String) (v : α)
    (h : Assoc.contains l k = false) : Assoc.set l k v = l ++ [(k, v)] := by
  induction l with
  | nil => rfl
  | cons p rest ih =>
    rcases p with ⟨a, b⟩
    simp only [Assoc.contains] at h
    by_cases ha : a = k
    · rw [if_pos ha] at h
      cases h
    · rw [if_neg ha] at h
      simp [Assoc.set, ha, ih h]

/-- Ingesting one more fresh, nonempty, parentless span id under the
same wire id steps the predicted single-group state. -/
theorem rootsState_step (w x : String) (ids : List String) (cap : Nat)
    (hx : x ≠ "") (hmem : x ∉ ids) (hne : ids ≠ []) :
    mergeSpansOne (rootsState w ids cap) w { spanId := x, parentSpanId := "" }
      = rootsState w (ids ++ [x]) cap := by
  have hset : Assoc.set (ids.map (fun i => (i, w))) x w
      = (ids ++ [x]).map (fun i => (i, w)) := by
    rw [Assoc.set_fresh _ _ _ (Assoc.contains_map_const_false ids w x hmem)]
    simp
  by_cases hlt : ids.length < MAX_SPANS_PER_TRACE
  · have htake : (ids ++ [x]).take MAX_SPANS_PER_TRACE = ids ++ [x] :=
      List.take_of_length_le (by simp; omega)
    have htake2 : ids.take MAX_SPANS_PER_TRACE = ids :=
      List.take_of_length_le (by omega)
    unfold mergeSpansOne resolveGroupKey ensureGroup insertSpan rootsState
    simp [Assoc.get?, Assoc.contains, Assoc.moveToEnd, Assoc.erase, Assoc.set,
      hx, hmem, hlt, hset, htake, htake2]
  · have htake : (ids ++ [x]).take MAX_SPANS_PER_TRACE = ids.take MAX_SPANS_PER_TRACE :=
      List.take_append_of_le_length (by omega)
    unfold mergeSpansOne resolveGroupKey ensureGroup insertSpan rootsState
    simp [Assoc.get?, Assoc.contains, Assoc.moveToEnd, Assoc.erase, Assoc.set,
      hx, hmem, hlt, hset, htake]

/-- The first parentless span creates the predicted single-group state. -/
theorem rootsState_first (w x : String) (cap : Nat) (hx : x ≠ "") (hcap : 0 < cap) :
    mergeSpansOne (emptyStore cap) w { spanId := x, parentSpanId := "" }
      = rootsState w [x] cap := by
  unfold mergeSpansOne resolveGroupKey ensureGroup insertSpan rootsState emptyStore evictOldest
  simp [Assoc.get?, Assoc.contains, Assoc.set, hx, Nat.not_le.mpr hcap, MAX_SPANS_PER_TRACE]

/-- Folding further fresh parentless spans extends the predicted state. -/
theorem rootsState_fold (w : String) (cap : Nat) :
    ∀ (ids done : List String), done ≠ [] → (∀ i ∈ ids, i ≠ "") →
    (done ++ ids).Nodup →
    List.foldl (fun st span => mergeSpansOne st w span) (rootsState w done cap)
        (ids.map (fun i => { spanId := i, parentSpanId := "" }))
      = rootsState w (done ++ ids) cap := by
  intro ids
  induction ids with
  | nil =>
    intro done _ _ _
    simp
  | cons i rest ih =>
    intro done hdone hne hnodup
    have hnodup' : (done ++ i :: rest).Nodup := hnodup
    have hfresh : i ∉ done := by
      rcases List.nodup_append.mp hnodup' with ⟨_, _, hdisj⟩
      intro hmem
      exact hdisj hmem (List.mem_cons_self _ _)
    simp only [List.map_cons, List.foldl_cons]
    rw [rootsState_step w i done cap (hne i (List.mem_cons_self _ _)) hfresh hdone]
    have hassoc : (done ++ [i]) ++ rest = done ++ i :: rest := by simp
    rw [ih (done ++ [i]) (by simp) (fun j hj => hne j (List.mem_cons_of_mem _ hj))
      (by rw [hassoc]; exact hnodup')]
    rw [hassoc]

/-- `merge_spans` on a batch of distinct, nonempty, parentless span ids
under one wire id yields exactly the predicted single-group state. -/
theorem merge_spans_roots (w : String) (ids : List String) (cap : Nat) (hcap : 0 < cap)
    (hne : ∀ i ∈ ids, i ≠ "") (hnodup : ids.Nodup) (hids : ids ≠ []) :
    merge_spans (emptyStore cap) w (ids.map (fun i => { spanId := i, parentSpanId := "" }))
      = rootsState w ids cap := by
  cases ids with
  | nil => cases hids rfl
  | cons x rest =>
    unfold merge_spans
    simp only [List.map_cons, List.foldl_cons]
    rw [rootsState_first w x cap (hne x (List.mem_cons_self _ _)) hcap]
    have hassoc : [x] ++ rest = x :: rest := rfl
    rw [rootsState_fold w cap rest [x] (by simp)
      (fun j hj => hne j (List.mem_cons_of_mem _ hj)) (by rw [hassoc]; exact hnodup)]
    rw [hassoc]

/-- C5: ingesting `M+1` spans with distinct nonempty ids that all route
to one group (here: same wire id `w`, no parents) retains exactly
`M = MAX_SPANS_PER_TRACE` spans in the group's sequence, while all `M+1`
ids are in the group's seen-set and mapped in the `span_id` index; a
later child span whose parent is any of the `M+1` ids still resolves to
that group (which stays the only group, its retained sequence
unchanged), and the child id itself is seen and indexed there. -/
theorem C5_cap_and_index (ids : List String) (w w2 p c : String)
    (hlen : ids.length = MAX_SPANS_PER_TRACE + 1)
    (hnodup : ids.Nodup) (hne : ∀ i ∈ ids, i ≠ "")
    (hp : p ∈ ids) (hc : c ∉ ids) (hcne : c ≠ "") :
    (merge_spans (emptyStore MAX_TRACES) w
        (ids.map (fun i => { spanId := i, parentSpanId := "" }))).traces
      = [(w, { trace_id := w,
               spans := (ids.take MAX_SPANS_PER_TRACE).map
                 (fun i => { spanId := i, parentSpanId := "" }) })] ∧
    (ids.take MAX_SPANS_PER_TRACE).length = MAX_SPANS_PER_TRACE ∧
    Assoc.get? (merge_spans (emptyStore MAX_TRACES) w
        (ids.map (fun i => { spanId := i, parentSpanId := "" }))).seen_spans w = some ids ∧
    (∀ i ∈ ids, Assoc.get? (merge_spans (emptyStore MAX_TRACES) w
        (ids.map (fun i => { spanId := i, parentSpanId := "" }))).span_to_group i = some w) ∧
    (mergeSpansOne (merge_spans (emptyStore MAX_TRACES) w
        (ids.map (fun i => { spanId := i, parentSpanId := "" })))
        w2 { spanId := c, parentSpanId := p }).traces
      = [(w, { trace_id := w,
               spans := (ids.take MAX_SPANS_PER_TRACE).map
                 (fun i => { spanId := i, parentSpanId := "" }) })] ∧
    Assoc.get? (mergeSpansOne (merge_spans (emptyStore MAX_TRACES) w
        (ids.map (fun i => { spanId := i, parentSpanId := "" })))
        w2 { spanId := c, parentSpanId := p }).span_to_group c = some w ∧
    Assoc.get? (mergeSpansOne (merge_spans (emptyStore MAX_TRACES) w
        (ids.map (fun i => { spanId := i, parentSpanId := "" })))
        w2 { spanId := c, parentSpanId := p }).seen_spans w = some (ids ++ [c]) := by
  have hids : ids ≠ [] := by
    intro he
    rw [he] at hlen
    simp [MAX_SPANS_PER_TRACE] at hlen
  have hroots := merge_spans_roots w ids MAX_TRACES (by simp [MAX_TRACES]) hne hnodup hids
  have hpne : p ≠ "" := hne p hp
  have htakelen : (ids.take MAX_SPANS_PER_TRACE).length = MAX_SPANS_PER_TRACE := by
    rw [List.length_take, hlen]
    simp
  have hchild : mergeSpansOne (rootsState w ids MAX_TRACES) w2 { spanId := c, parentSpanId := p }
      = (⟨[(w, ⟨w, (ids.take MAX_SPANS_PER_TRACE).map (fun i => ⟨i, ""⟩)⟩)], [(w, ids ++ [c])], ids.map (fun i => (i, w)) ++ [(c, w)], [], MAX_TRACES⟩ : TraceStore) := by
    have hsetc : Assoc.set (ids.map (fun i => (i, w))) c w
        = ids.map (fun i => (i, w)) ++ [(c, w)] :=
      Assoc.set_fresh _ _ _ (Assoc.contains_map_const_false ids w c hc)
    have hcontp : Assoc.contains (ids.map (fun i => (i, w)) ++ [(c, w)]) p = true := by
      rw [Assoc.contains_eq_isSome,
        Assoc.get?_append_of_some _ _ _ _ (Assoc.get?_map_const ids w p hp)]
      rfl
    have hnotlt : ¬ ((ids.take MAX_SPANS_PER_TRACE).map
        (fun i => ({ spanId := i, parentSpanId := "" } : Span))).length < MAX_SPANS_PER_TRACE := by
      rw [List.length_map, htakelen]
      simp
    have hnlt : ¬ ids.length < MAX_SPANS_PER_TRACE := by
      rw [hlen]
      omega
    unfold mergeSpansOne resolveGroupKey ensureGroup insertSpan rootsState
    simp [Assoc.get?, Assoc.contains, Assoc.moveToEnd, Assoc.erase, Assoc.set,
      hpne, hcne, hc, Assoc.get?_map_const ids w p hp, hsetc, hcontp, hnotlt, hnlt]
  rw [hroots]
  refine ⟨rfl, htakelen, by simp [rootsState, Assoc.get?], ?_, ?_, ?_, ?_⟩
  · intro i hi
    exact Assoc.get?_map_const ids w i hi
  · rw [hchild]
  · rw [hchild]
    have hnone : Assoc.get? (ids.map (fun i => (i, w))) c = none := by
      have hcc := Assoc.contains_eq_isSome (ids.map (fun i => (i, w))) c
      rw [Assoc.contains_map_const_false ids w c hc] at hcc
      cases hg : Assoc.get? (ids.map (fun i => (i, w))) c with
      | none => rfl
      | some v =>
        rw [hg] at hcc
        cases hcc
    show Assoc.get? (ids.map (fun i => (i, w)) ++ [(c, w)]) c = some w
    rw [Assoc.get?_append_of_none _ _ _ hnone]
    simp [Assoc.get?]
  · rw [hchild]
    simp [Assoc.get?]

/-! ### C6: least-recently-touched eviction order -/

theorem Assoc.contains_false_of_not_mem_keys {α : Type} (l : Assoc α) (k : String)
    (h : k ∉ l.map Prod.fst) : Assoc.contains l k = false := by
  induction l with
  | nil => rfl
  | cons p rest ih =>
    simp only [List.map_cons, List.mem_cons] at h
    push_neg at h
    simp only [Assoc.contains]
    rw [if_neg (fun he => h.1 he.symm)]
    exact ih h.2

theorem Assoc.get?_eq_none_of_contains_false {α : Type} (l : Assoc α) (k : String)
    (h : Assoc.contains l k = false) : Assoc.get? l k = none := by
  have hc := Assoc.contains_eq_isSome l k
  rw [h] at hc
  cases hg : Assoc.get? l k with
  | none => rfl
  | some v =>
    rw [hg] at hc
    cases hc

theorem Assoc.erase_of_contains_false {α : Type} (l : Assoc α) (k : String)
    (h : Assoc.contains l k = false) : Assoc.erase l k = l := by
  induction l with
  | nil => rfl
  | cons p rest ih =>
    rcases p with ⟨a, b⟩
    simp only [Assoc.contains] at h
    by_cases ha : a = k
    · rw [if_pos ha] at h
      cases h
    · rw [if_neg ha] at h
      simp [Assoc.erase, ha, ih h]

theorem Assoc.set_append_last {α : Type} (l : Assoc α) (k : String) (v v' : α)
    (h : Assoc.contains l k = false) :
    Assoc.set (l ++ [(k, v)]) k v' = l ++ [(k, v')] := by
  induction l with
  | nil => simp [Assoc.set]
  | cons p rest ih =>
    rcases p with ⟨a, b⟩
    simp only [Assoc.contains] at h
    by_cases ha : a = k
    · rw [if_pos ha] at h
      cases h
    · rw [if_neg ha] at h
      simp [Assoc.set, ha, ih h]

theorem Assoc.set_append_of_contains_false {α : Type} (l1 l2 : Assoc α) (k : String) (v : α)
    (h : Assoc.contains l1 k = false) :
    Assoc.set (l1 ++ l2) k v = l1 ++ Assoc.set l2 k v := by
  induction l1 with
  | nil => rfl
  | cons p rest ih =>
    rcases p with ⟨a, b⟩
    simp only [Assoc.contains] at h
    by_cases ha : a = k
    · rw [if_pos ha] at h
      cases h
    · rw [if_neg ha] at h
      simp [Assoc.set, ha, ih h]

theorem keys_entry_map {β : Type} (pairs : List (String × String))
    (f : String × String → β) :
    (pairs.map (fun pr => (pr.1, f pr))).map Prod.fst = pairs.map Prod.fst := by
  rw [List.map_map]
  rfl

theorem keys_inv_map (pairs : List (String × String)) :
    (pairs.map (fun pr => (pr.2, pr.1))).map Prod.fst = pairs.map Prod.snd := by
  rw [List.map_map]
  rfl

/-- Creating one more group: a parentless span with a fresh wire id and
a fresh nonempty span id, while the store is below capacity, appends one
singleton group. -/
theorem groupsState_step (pairs : List (String × String)) (wi si : String) (cap : Nat)
    (hlen : pairs.length < cap) (hwi : wi ∉ pairs.map Prod.fst)
    (hsine : si ≠ "") (hsi : si ∉ pairs.map Prod.snd) :
    mergeSpansOne (groupsState pairs cap) wi { spanId := si, parentSpanId := "" }
      = groupsState (pairs ++ [(wi, si)]) cap := by
  have hct : Assoc.contains
      (pairs.map (fun pr => (pr.1, ({ trace_id := pr.1, spans := [{ spanId := pr.2, parentSpanId := "" }] } : Group)))) wi = false :=
    Assoc.contains_false_of_not_mem_keys _ _ (by rw [keys_entry_map]; exact hwi)
  have hcs : Assoc.contains (pairs.map (fun pr => (pr.1, [pr.2]))) wi = false :=
    Assoc.contains_false_of_not_mem_keys _ _ (by rw [keys_entry_map]; exact hwi)
  have hcg : Assoc.contains (pairs.map (fun pr => (pr.2, pr.1))) si = false :=
    Assoc.contains_false_of_not_mem_keys _ _ (by rw [keys_inv_map]; exact hsi)
  have hnge : ¬ cap ≤ pairs.length := Nat.not_le.mpr hlen
  have hseen : Assoc.get? (Assoc.set (pairs.map (fun pr => (pr.1, [pr.2]))) wi []) wi
      = some [] := by
    rw [Assoc.set_fresh _ _ _ hcs]
    rw [Assoc.get?_append_of_none _ _ _ (Assoc.get?_eq_none_of_contains_false _ _ hcs)]
    simp [Assoc.get?]
  have hseenset : Assoc.set (Assoc.set (pairs.map (fun pr => (pr.1, [pr.2]))) wi []) wi [si]
      = (pairs ++ [(wi, si)]).map (fun pr => (pr.1, [pr.2])) := by
    rw [Assoc.set_fresh _ _ _ hcs, Assoc.set_append_last _ _ _ _ hcs]
    simp
  have hs2g : Assoc.set (pairs.map (fun pr => (pr.2, pr.1))) si wi
      = (pairs ++ [(wi, si)]).map (fun pr => (pr.2, pr.1)) := by
    rw [Assoc.set_fresh _ _ _ hcg]
    simp
  have hgrp : Assoc.get?
      (pairs.map (fun pr => (pr.1, ({ trace_id := pr.1, spans := [{ spanId := pr.2, parentSpanId := "" }] } : Group))) ++
        [(wi, { trace_id := wi, spans := [] })]) wi
      = some { trace_id := wi, spans := [] } := by
    rw [Assoc.get?_append_of_none _ _ _ (Assoc.get?_eq_none_of_contains_false _ _ hct)]
    simp [Assoc.get?]
  have htr : Assoc.set
      (pairs.map (fun pr => (pr.1, ({ trace_id := pr.1, spans := [{ spanId := pr.2, parentSpanId := "" }] } : Group))) ++
        [(wi, { trace_id := wi, spans := [] })]) wi
      { trace_id := wi, spans := [{ spanId := si, parentSpanId := "" }] }
      = (pairs ++ [(wi, si)]).map
        (fun pr => (pr.1, ({ trace_id := pr.1, spans := [{ spanId := pr.2, parentSpanId := "" }] } : Group))) := by
    rw [Assoc.set_append_last _ _ _ _ hct]
    simp
  unfold mergeSpansOne resolveGroupKey ensureGroup insertSpan groupsState
  simp [Assoc.get?, hsine, hct, hcs, hnge, hseen, hseenset, hs2g, hgrp, htr,
    MAX_SPANS_PER_TRACE]

/-- Folding fresh (wire id, span id) creations from the predicted
multi-group state extends it pair by pair. -/
theorem groupsState_fold (cap : Nat) :
    ∀ (ps done : List (String × String)),
    ((done ++ ps).map Prod.fst).Nodup → ((done ++ ps).map Prod.snd).Nodup →
    (∀ s ∈ ps.map Prod.snd, s ≠ "") → (done ++ ps).length ≤ cap →
    List.foldl (fun st op => merge_spans st op.1 op.2) (groupsState done cap)
        (ps.map (fun pr => (pr.1, [{ spanId := pr.2, parentSpanId := "" }])))
      = groupsState (done ++ ps) cap := by
  intro ps
  induction ps with
  | nil =>
    intro done _ _ _ _
    simp
  | cons pr rest ih =>
    intro done hw hs hne hlen
    have hassoc : (done ++ [pr]) ++ rest = done ++ pr :: rest := by simp
    have hwi : pr.1 ∉ done.map Prod.fst := by
      intro hmem
      have := List.nodup_append.mp (by simpa using hw)
      exact this.2.2 hmem (by simp)
    have hsi : pr.2 ∉ done.map Prod.snd := by
      intro hmem
      have := List.nodup_append.mp (by simpa using hs)
      exact this.2.2 hmem (by simp)
    have hdlen : done.length < cap := by
      have := hlen
      simp only [List.length_append, List.length_cons] at this
      omega
    simp only [List.map_cons, List.foldl_cons]
    have hsingle : merge_spans (groupsState done cap) pr.1 [{ spanId := pr.2, parentSpanId := "" }]
        = mergeSpansOne (groupsState done cap) pr.1 { spanId := pr.2, parentSpanId := "" } := by
      unfold merge_spans
      simp
    rw [hsingle, groupsState_step done pr.1 pr.2 cap hdlen hwi
      (hne pr.2 (by simp)) hsi]
    have hw' : (((done ++ [pr]) ++ rest).map Prod.fst).Nodup := by
      rw [hassoc]
      exact hw
    have hs' : (((done ++ [pr]) ++ rest).map Prod.snd).Nodup := by
      rw [hassoc]
      exact hs
    rw [show (done ++ [pr] : List (String × String)) = done ++ [(pr.1, pr.2)] from by simp]
    rw [ih (done ++ [(pr.1, pr.2)]) (by simpa using hw') (by simpa using hs')
      (fun j hj => hne j (by simp [hj])) (by simpa [List.length_append] using hlen)]
    simp

/-- Touching the oldest group with a fresh span moves it to the
most-recently-touched end and appends the span. -/
theorem groupsState_touch (w1 s1 : String) (tail : List (String × String)) (t : String)
    (cap : Nat) (hw1 : w1 ∉ tail.map Prod.fst) (htne : t ≠ "") (ht1 : t ≠ s1)
    (ht2 : t ∉ tail.map Prod.snd) :
    mergeSpansOne (groupsState ((w1, s1) :: tail) cap) w1 { spanId := t, parentSpanId := "" }
      = (⟨tail.map (fun pr => (pr.1, ⟨pr.1, [⟨pr.2, ""⟩]⟩)) ++ [(w1, ⟨w1, [⟨s1, ""⟩, ⟨t, ""⟩]⟩)], (w1, [s1, t]) :: tail.map (fun pr => (pr.1, [pr.2])), ((w1, s1) :: tail).map (fun pr => (pr.2, pr.1)) ++ [(t, w1)], [], cap⟩ : TraceStore) := by
  have hcw : Assoc.contains
      (tail.map (fun pr => (pr.1, ({ trace_id := pr.1, spans := [{ spanId := pr.2, parentSpanId := "" }] } : Group)))) w1 = false :=
    Assoc.contains_false_of_not_mem_keys _ _ (by rw [keys_entry_map]; exact hw1)
  have hmove : Assoc.moveToEnd
      ((w1, ({ trace_id := w1, spans := [{ spanId := s1, parentSpanId := "" }] } : Group)) ::
        tail.map (fun pr => (pr.1, ({ trace_id := pr.1, spans := [{ spanId := pr.2, parentSpanId := "" }] } : Group)))) w1
      = tail.map (fun pr => (pr.1, ({ trace_id := pr.1, spans := [{ spanId := pr.2, parentSpanId := "" }] } : Group))) ++
        [(w1, { trace_id := w1, spans := [{ spanId := s1, parentSpanId := "" }] })] := by
    unfold Assoc.moveToEnd
    simp [Assoc.get?, Assoc.erase, Assoc.erase_of_contains_false _ _ hcw]
  have hsfresh : Assoc.contains (((w1, s1) :: tail).map (fun pr => (pr.2, pr.1))) t = false := by
    apply Assoc.contains_false_of_not_mem_keys
    rw [keys_inv_map]
    simp only [List.map_cons, List.mem_cons]
    push_neg
    exact ⟨ht1, fun hm => ht2 hm⟩
  have hs2gset : Assoc.set (((w1, s1) :: tail).map (fun pr => (pr.2, pr.1))) t w1
      = ((w1, s1) :: tail).map (fun pr => (pr.2, pr.1)) ++ [(t, w1)] :=
    Assoc.set_fresh _ _ _ hsfresh
  have hgrp : Assoc.get?
      (tail.map (fun pr => (pr.1, ({ trace_id := pr.1, spans := [{ spanId := pr.2, parentSpanId := "" }] } : Group))) ++
        [(w1, { trace_id := w1, spans := [{ spanId := s1, parentSpanId := "" }] })]) w1
      = some { trace_id := w1, spans := [{ spanId := s1, parentSpanId := "" }] } := by
    rw [Assoc.get?_append_of_none _ _ _ (Assoc.get?_eq_none_of_contains_false _ _ hcw)]
    simp [Assoc.get?]
  have htrset : Assoc.set
      (tail.map (fun pr => (pr.1, ({ trace_id := pr.1, spans := [{ spanId := pr.2, parentSpanId := "" }] } : Group))) ++
        [(w1, { trace_id := w1, spans := [{ spanId := s1, parentSpanId := "" }] })]) w1
      { trace_id := w1, spans := [{ spanId := s1, parentSpanId := "" }, { spanId := t, parentSpanId := "" }] }
      = tail.map (fun pr => (pr.1, ({ trace_id := pr.1, spans := [{ spanId := pr.2, parentSpanId := "" }] } : Group))) ++
        [(w1, { trace_id := w1, spans := [{ spanId := s1, parentSpanId := "" }, { spanId := t, parentSpanId := "" }] })] :=
    Assoc.set_append_last _ _ _ _ hcw
  have hsfresh2 : Assoc.contains (tail.map (fun pr => (pr.2, pr.1))) t = false :=
    Assoc.contains_false_of_not_mem_keys _ _ (by rw [keys_inv_map]; exact ht2)
  have hs2gset2 : Assoc.set (tail.map (fun pr => (pr.2, pr.1))) t w1
      = tail.map (fun pr => (pr.2, pr.1)) ++ [(t, w1)] :=
    Assoc.set_fresh _ _ _ hsfresh2
  unfold mergeSpansOne resolveGroupKey ensureGroup insertSpan groupsState
  simp [Assoc.get?, Assoc.contains, Assoc.set, htne, ht1, Ne.symm ht1, hmove, hs2gset,
    hs2gset2, hgrp, htrset, MAX_SPANS_PER_TRACE]

/-- C6: with capacity `N = rest.length + 2`, creating `N` singleton
groups, then touching the first-created group `w1` with a fresh span,
then creating an `(N+1)`-th group `v` evicts exactly the
least-recently-touched group `w2` (not the older-by-creation `w1`,
which the touch protected): the final touch-ordered key list is
`rest ++ [w1, v]` and the store still holds `N` groups. -/
theorem C6_eviction_order (w1 s1 w2 s2 : String) (rest : List (String × String))
    (t u v : String)
    (hw : (w1 :: w2 :: rest.map Prod.fst).Nodup)
    (hs : (s1 :: s2 :: rest.map Prod.snd).Nodup)
    (hne : ∀ s ∈ s1 :: s2 :: rest.map Prod.snd, s ≠ "")
    (htne : t ≠ "") (ht : t ∉ s1 :: s2 :: rest.map Prod.snd)
    (hune : u ≠ "") (hu : u ∉ t :: s1 :: s2 :: rest.map Prod.snd)
    (hv : v ∉ w1 :: w2 :: rest.map Prod.fst) :
    (applyOps (rest.length + 2) (((w1, s1) :: (w2, s2) :: rest).map
        (fun pr => (pr.1, [{ spanId := pr.2, parentSpanId := "" }])))).traces.map Prod.fst
      = w1 :: w2 :: rest.map Prod.fst ∧
    (mergeSpansOne (applyOps (rest.length + 2) (((w1, s1) :: (w2, s2) :: rest).map
        (fun pr => (pr.1, [{ spanId := pr.2, parentSpanId := "" }]))))
        w1 { spanId := t, parentSpanId := "" }).traces.map Prod.fst
      = (w2 :: rest.map Prod.fst) ++ [w1] ∧
    (mergeSpansOne (mergeSpansOne (applyOps (rest.length + 2) (((w1, s1) :: (w2, s2) :: rest).map
        (fun pr => (pr.1, [{ spanId := pr.2, parentSpanId := "" }]))))
        w1 { spanId := t, parentSpanId := "" })
        v { spanId := u, parentSpanId := "" }).traces.map Prod.fst
      = (rest.map Prod.fst ++ [w1]) ++ [v] ∧
    (mergeSpansOne (mergeSpansOne (applyOps (rest.length + 2) (((w1, s1) :: (w2, s2) :: rest).map
        (fun pr => (pr.1, [{ spanId := pr.2, parentSpanId := "" }]))))
        w1 { spanId := t, parentSpanId := "" })
        v { spanId := u, parentSpanId := "" }).traces.length = rest.length + 2 := by
  have hw1 : w1 ∉ w2 :: rest.map Prod.fst := (List.nodup_cons.mp hw).1
  have hw2 : w2 ∉ rest.map Prod.fst := (List.nodup_cons.mp (List.nodup_cons.mp hw).2).1
  have hw12 : w1 ≠ w2 := fun he => hw1 (he ▸ List.mem_cons_self _ _)
  have hw1r : w1 ∉ rest.map Prod.fst := fun hm => hw1 (List.mem_cons_of_mem _ hm)
  have hs1 : s1 ∉ s2 :: rest.map Prod.snd := (List.nodup_cons.mp hs).1
  have hs12 : s1 ≠ s2 := fun he => hs1 (he ▸ List.mem_cons_self _ _)
  have hs2r : s2 ∉ rest.map Prod.snd := (List.nodup_cons.mp (List.nodup_cons.mp hs).2).1
  have hts1 : t ≠ s1 := fun he => ht (he ▸ List.mem_cons_self _ _)
  have hts2 : t ≠ s2 := fun he => ht (List.mem_cons_of_mem _ (he ▸ List.mem_cons_self _ _))
  have htr : t ∉ rest.map Prod.snd := fun hm => ht (by simp [hm])
  have hut : u ≠ t := fun he => hu (he ▸ List.mem_cons_self _ _)
  have hus1 : u ≠ s1 := fun he => hu (by simp [he])
  have hur : u ∉ rest.map Prod.snd := fun hm => hu (by simp [hm])
  have hvw1 : v ≠ w1 := fun he => hv (he ▸ List.mem_cons_self _ _)
  have hvw2 : v ≠ w2 := fun he => hv (by simp [he])
  have hvr : v ∉ rest.map Prod.fst := fun hm => hv (by simp [hm])
  have hbuilt : applyOps (rest.length + 2) (((w1, s1) :: (w2, s2) :: rest).map
      (fun pr => (pr.1, [{ spanId := pr.2, parentSpanId := "" }])))
      = groupsState ((w1, s1) :: (w2, s2) :: rest) (rest.length + 2) := by
    unfold applyOps
    rw [show emptyStore (rest.length + 2) = groupsState [] (rest.length + 2) from rfl]
    rw [groupsState_fold (rest.length + 2) ((w1, s1) :: (w2, s2) :: rest) []
      (by simpa using hw) (by simpa using hs) (by simpa using hne) (by simp)]
    rfl
  have htouch := groupsState_touch w1 s1 ((w2, s2) :: rest) t (rest.length + 2)
    (by simp only [List.map_cons, List.mem_cons]; push_neg; exact ⟨hw12, fun hm => hw1r hm⟩)
    htne hts1 (by simp only [List.map_cons, List.mem_cons]; push_neg; exact ⟨hts2, fun hm => htr hm⟩)
  rw [hbuilt, htouch]
  refine ⟨by simp [groupsState, keys_entry_map], by simp [keys_entry_map], ?_⟩
  have hcrest : Assoc.contains (rest.map (fun pr => (pr.1,
      ({ trace_id := pr.1, spans := [{ spanId := pr.2, parentSpanId := "" }] } : Group)))) v = false :=
    Assoc.contains_false_of_not_mem_keys _ _ (by rw [keys_entry_map]; exact hvr)
  have hcrestS : Assoc.contains (rest.map (fun pr => (pr.1, [pr.2]))) v = false :=
    Assoc.contains_false_of_not_mem_keys _ _ (by rw [keys_entry_map]; exact hvr)
  have hcrestSw2 : Assoc.contains (rest.map (fun pr => (pr.1, [pr.2]))) w2 = false :=
    Assoc.contains_false_of_not_mem_keys _ _ (by rw [keys_entry_map]; exact hw2)
  have heraseS : Assoc.erase (rest.map (fun pr => (pr.1, [pr.2]))) w2
      = rest.map (fun pr => (pr.1, [pr.2])) := Assoc.erase_of_contains_false _ _ hcrestSw2
  have hcinv : Assoc.contains (rest.map (fun pr => (pr.2, pr.1)) ++ [(t, w1)]) s2 = false := by
    apply Assoc.contains_false_of_not_mem_keys
    rw [List.map_append, keys_inv_map]
    simp [hs2r, Ne.symm hts2]
  have heraseI : Assoc.erase (rest.map (fun pr => (pr.2, pr.1)) ++ [(t, w1)]) s2
      = rest.map (fun pr => (pr.2, pr.1)) ++ [(t, w1)] := Assoc.erase_of_contains_false _ _ hcinv
  have hcinvu : Assoc.contains (rest.map (fun pr => (pr.2, pr.1)) ++ [(t, w1)]) u = false := by
    apply Assoc.contains_false_of_not_mem_keys
    rw [List.map_append, keys_inv_map]
    simp [hur, hut]
  have hsetIu : Assoc.set (rest.map (fun pr => (pr.2, pr.1)) ++ [(t, w1)]) u v
      = rest.map (fun pr => (pr.2, pr.1)) ++ [(t, w1)] ++ [(u, v)] :=
    Assoc.set_fresh _ _ _ hcinvu
  have hsetSv : Assoc.set (rest.map (fun pr => (pr.1, [pr.2]))) v []
      = rest.map (fun pr => (pr.1, [pr.2])) ++ [(v, [])] := Assoc.set_fresh _ _ _ hcrestS
  have hgetSv : Assoc.get? (rest.map (fun pr => (pr.1, [pr.2])) ++ [(v, ([] : List String))]) v
      = some [] := by
    rw [Assoc.get?_append_of_none _ _ _ (Assoc.get?_eq_none_of_contains_false _ _ hcrestS)]
    simp [Assoc.get?]
  have hsetSu : Assoc.set (rest.map (fun pr => (pr.1, [pr.2])) ++ [(v, ([] : List String))]) v [u]
      = rest.map (fun pr => (pr.1, [pr.2])) ++ [(v, [u])] :=
    Assoc.set_append_last _ _ _ _ hcrestS
  have hcrestG1 : Assoc.contains (rest.map (fun pr => (pr.1,
      ({ trace_id := pr.1, spans := [{ spanId := pr.2, parentSpanId := "" }] } : Group))) ++
      [(w1, { trace_id := w1, spans := [{ spanId := s1, parentSpanId := "" }, { spanId := t, parentSpanId := "" }] })]) v = false := by
    apply Assoc.contains_false_of_not_mem_keys
    rw [List.map_append, keys_entry_map]
    simp [hvr, hvw1]
  have hgetTv : Assoc.get? (rest.map (fun pr => (pr.1,
      ({ trace_id := pr.1, spans := [{ spanId := pr.2, parentSpanId := "" }] } : Group))) ++
      [(w1, { trace_id := w1, spans := [{ spanId := s1, parentSpanId := "" }, { spanId := t, parentSpanId := "" }] }),
       (v, { trace_id := v, spans := [] })]) v = some { trace_id := v, spans := [] } := by
    rw [Assoc.get?_append_of_none _ _ _ (Assoc.get?_eq_none_of_contains_false _ _ hcrest)]
    simp [Assoc.get?, Ne.symm hvw1]
  have hsetTv : Assoc.set (rest.map (fun pr => (pr.1,
      ({ trace_id := pr.1, spans := [{ spanId := pr.2, parentSpanId := "" }] } : Group))) ++
      [(w1, { trace_id := w1, spans := [{ spanId := s1, parentSpanId := "" }, { spanId := t, parentSpanId := "" }] }),
       (v, { trace_id := v, spans := [] })]) v { trace_id := v, spans := [{ spanId := u, parentSpanId := "" }] }
      = rest.map (fun pr => (pr.1,
          ({ trace_id := pr.1, spans := [{ spanId := pr.2, parentSpanId := "" }] } : Group))) ++
        [(w1, { trace_id := w1, spans := [{ spanId := s1, parentSpanId := "" }, { spanId := t, parentSpanId := "" }] }),
         (v, { trace_id := v, spans := [{ spanId := u, parentSpanId := "" }] })] := by
    rw [Assoc.set_append_of_contains_false _ _ _ _ hcrest]
    simp [Assoc.set, Ne.symm hvw1]
  unfold mergeSpansOne resolveGroupKey ensureGroup insertSpan evictOldest
  constructor
  · simp [Assoc.get?, Assoc.contains, Assoc.set, Assoc.erase, hune, Ne.symm hvw1,
      Ne.symm hvw2, hvr, hcrest, hcrestG1, hw12, Ne.symm hs12, heraseS, heraseI, hsetIu,
      hsetSv, hgetSv, hsetSu, hgetTv, hsetTv, Ne.symm hus1, MAX_SPANS_PER_TRACE,
      keys_entry_map, List.map_append]
  · simp [Assoc.get?, Assoc.contains, Assoc.set, Assoc.erase, hune, Ne.symm hvw1,
      Ne.symm hvw2, hvr, hcrest, hcrestG1, hw12, Ne.symm hs12, heraseS, heraseI, hsetIu,
      hsetSv, hgetSv, hsetSu, hgetTv, hsetTv, Ne.symm hus1, MAX_SPANS_PER_TRACE,
      keys_entry_map, List.map_append]

theorem capIds_length : capIds.length = MAX_SPANS_PER_TRACE + 1 := by
  simp [capIds]

theorem capIds_nodup : capIds.Nodup := by
  have hinj : Function.Injective (fun n => String.mk (List.replicate (n + 1) 'a')) := by
    intro a b h
    have hd : List.replicate (a + 1) 'a' = List.replicate (b + 1) 'a' :=
      congrArg String.data h
    have hl := congrArg List.length hd
    simpa using hl
  exact List.Nodup.map hinj (List.nodup_range _)

theorem capIds_ne_empty : ∀ i ∈ capIds, i ≠ "" := by
  intro i hi
  rcases List.mem_map.mp hi with ⟨n, _, rfl⟩
  intro he
  have hl := congrArg String.length he
  have : n + 1 = 0 := by simpa [String.length] using hl
  cases this

theorem capIds_mem_a : String.mk (List.replicate 1 'a') ∈ capIds := by
  refine List.mem_map.mpr ⟨0, ?_, rfl⟩
  simp [MAX_SPANS_PER_TRACE]

theorem capIds_not_mem_c0 : "c0" ∉ capIds := by
  intro h
  rcases List.mem_map.mp h with ⟨n, _, he⟩
  have hd : List.replicate (n + 1) 'a' = ("c0" : String).data := congrArg String.data he
  rw [List.replicate_succ] at hd
  have hh := congrArg List.head? hd
  rw [List.head?_cons] at hh
  exact absurd hh (by decide)

/-- Witness for C5 at the concrete 501-id family `capIds`. -/
theorem C5_cap_and_index_witness :
    capIds.length = MAX_SPANS_PER_TRACE + 1 ∧ capIds.Nodup ∧ (∀ i ∈ capIds, i ≠ "") ∧
    String.mk (List.replicate 1 'a') ∈ capIds ∧ "c0" ∉ capIds ∧ ("c0" : String) ≠ "" ∧
    ((merge_spans (emptyStore MAX_TRACES) "wA"
        (capIds.map (fun i => { spanId := i, parentSpanId := "" }))).traces
      = [("wA", { trace_id := "wA",
                  spans := (capIds.take MAX_SPANS_PER_TRACE).map
                    (fun i => { spanId := i, parentSpanId := "" }) })] ∧
    (capIds.take MAX_SPANS_PER_TRACE).length = MAX_SPANS_PER_TRACE ∧
    Assoc.get? (merge_spans (emptyStore MAX_TRACES) "wA"
        (capIds.map (fun i => { spanId := i, parentSpanId := "" }))).seen_spans "wA" = some capIds ∧
    (∀ i ∈ capIds, Assoc.get? (merge_spans (emptyStore MAX_TRACES) "wA"
        (capIds.map (fun i => { spanId := i, parentSpanId := "" }))).span_to_group i = some "wA") ∧
    (mergeSpansOne (merge_spans (emptyStore MAX_TRACES) "wA"
        (capIds.map (fun i => { spanId := i, parentSpanId := "" })))
        "wB" { spanId := "c0", parentSpanId := String.mk (List.replicate 1 'a') }).traces
      = [("wA", { trace_id := "wA",
                  spans := (capIds.take MAX_SPANS_PER_TRACE).map
                    (fun i => { spanId := i, parentSpanId := "" }) })] ∧
    Assoc.get? (mergeSpansOne (merge_spans (emptyStore MAX_TRACES) "wA"
        (capIds.map (fun i => { spanId := i, parentSpanId := "" })))
        "wB" { spanId := "c0", parentSpanId := String.mk (List.replicate 1 'a') }).span_to_group "c0" = some "wA" ∧
    Assoc.get? (mergeSpansOne (merge_spans (emptyStore MAX_TRACES) "wA"
        (capIds.map (fun i => { spanId := i, parentSpanId := "" })))
        "wB" { spanId := "c0", parentSpanId := String.mk (List.replicate 1 'a') }).seen_spans "wA"
      = some (capIds ++ ["c0"])) :=
  ⟨capIds_length, capIds_nodup, capIds_ne_empty, capIds_mem_a, capIds_not_mem_c0, by decide,
    C5_cap_and_index capIds "wA" "wB" (String.mk (List.replicate 1 'a')) "c0"
      capIds_length capIds_nodup capIds_ne_empty capIds_mem_a capIds_not_mem_c0 (by decide)⟩

/-- Witness for C6 at 50 concrete groups (the default `MAX_TRACES`). -/
theorem C6_eviction_order_witness :
    (("w01" :: "w02" :: c6Rest.map Prod.fst).Nodup ∧
     ("s01" :: "s02" :: c6Rest.map Prod.snd).Nodup ∧
     (∀ s ∈ "s01" :: "s02" :: c6Rest.map Prod.snd, s ≠ "") ∧
     ("t00" : String) ≠ "" ∧ "t00" ∉ "s01" :: "s02" :: c6Rest.map Prod.snd ∧
     ("u00" : String) ≠ "" ∧ "u00" ∉ "t00" :: "s01" :: "s02" :: c6Rest.map Prod.snd ∧
     "v00" ∉ "w01" :: "w02" :: c6Rest.map Prod.fst) ∧
    ((applyOps (c6Rest.length + 2) ((("w01", "s01") :: ("w02", "s02") :: c6Rest).map
        (fun pr => (pr.1, [{ spanId := pr.2, parentSpanId := "" }])))).traces.map Prod.fst
      = "w01" :: "w02" :: c6Rest.map Prod.fst ∧
    (mergeSpansOne (applyOps (c6Rest.length + 2) ((("w01", "s01") :: ("w02", "s02") :: c6Rest).map
        (fun pr => (pr.1, [{ spanId := pr.2, parentSpanId := "" }]))))
        "w01" { spanId := "t00", parentSpanId := "" }).traces.map Prod.fst
      = ("w02" :: c6Rest.map Prod.fst) ++ ["w01"] ∧
    (mergeSpansOne (mergeSpansOne (applyOps (c6Rest.length + 2) ((("w01", "s01") :: ("w02", "s02") :: c6Rest).map
        (fun pr => (pr.1, [{ spanId := pr.2, parentSpanId := "" }]))))
        "w01" { spanId := "t00", parentSpanId := "" })
        "v00" { spanId := "u00", parentSpanId := "" }).traces.map Prod.fst
      = (c6Rest.map Prod.fst ++ ["w01"]) ++ ["v00"] ∧
    (mergeSpansOne (mergeSpansOne (applyOps (c6Rest.length + 2) ((("w01", "s01") :: ("w02", "s02") :: c6Rest).map
        (fun pr => (pr.1, [{ spanId := pr.2, parentSpanId := "" }]))))
        "w01" { spanId := "t00", parentSpanId := "" })
        "v00" { spanId := "u00", parentSpanId := "" }).traces.length = c6Rest.length + 2) :=
  ⟨⟨by decide, by decide, by decide, by decide, by decide, by decide, by decide, by decide⟩,
    C6_eviction_order "w01" "s01" "w02" "s02" c6Rest "t00" "u00" "v00"
      (by decide) (by decide) (by decide) (by decide) (by decide) (by decide) (by decide) (by decide)⟩

/-! ### C3: residency invariants of the store -/

theorem Assoc.contains_iff_mem_keys {α : Type} (d : Assoc α) (k : String) :
    Assoc.contains d k = true ↔ k ∈ d.map Prod.fst := by
  induction d with
  | nil => simp [Assoc.contains]
  | cons p rest ih =>
    rcases p with ⟨a, b⟩
    by_cases ha : a = k
    · simp [Assoc.contains, ha]
    · simp only [Assoc.contains, if_neg ha, List.map_cons, List.mem_cons, ih]
      constructor
      · exact fun h => Or.inr h
      · rintro (h | h)
        · exact absurd h.symm ha
        · exact h

theorem Assoc.contains_set {α : Type} (d : Assoc α) (k0 k : String) (v : α) :
    Assoc.contains (Assoc.set d k0 v) k = if k = k0 then true else Assoc.contains d k := by
  by_cases hk : k = k0
  · rw [if_pos hk, hk, Assoc.contains_eq_isSome, Assoc.get?_set_self]
    rfl
  · rw [if_neg hk, Assoc.contains_eq_isSome, Assoc.get?_set_ne _ _ _ _ hk,
      Assoc.contains_eq_isSome]

theorem Assoc.contains_erase {α : Type} (d : Assoc α) (k0 k : String) :
    Assoc.contains (Assoc.erase d k0) k = if k = k0 then false else Assoc.contains d k := by
  rw [Assoc.contains_eq_isSome, Assoc.get?_erase]
  by_cases hk : k = k0
  · simp [hk]
  · simp [hk, Assoc.contains_eq_isSome]

theorem Assoc.contains_moveToEnd {α : Type} (d : Assoc α) (k0 k : String) :
    Assoc.contains (Assoc.moveToEnd d k0) k = Assoc.contains d k := by
  rw [Assoc.contains_eq_isSome, Assoc.get?_moveToEnd, Assoc.contains_eq_isSome]

theorem Assoc.contains_append_single {α : Type} (l : Assoc α) (k0 k : String) (v : α) :
    Assoc.contains (l ++ [(k0, v)]) k = if k = k0 then true else Assoc.contains l k := by
  by_cases hk : k = k0
  · subst hk
    rw [if_pos rfl, Assoc.contains_eq_isSome]
    cases hg : Assoc.get? l k with
    | some w => rw [Assoc.get?_append_of_some _ _ _ _ hg]; rfl
    | none => rw [Assoc.get?_append_of_none _ _ _ hg]; simp [Assoc.get?]
  · rw [if_neg hk, Assoc.contains_eq_isSome, Assoc.contains_eq_isSome]
    cases hg : Assoc.get? l k with
    | some w => rw [Assoc.get?_append_of_some _ _ _ _ hg]
    | none =>
      rw [Assoc.get?_append_of_none _ _ _ hg]
      simp [Assoc.get?, Ne.symm hk]

theorem Assoc.keys_set_of_contains {α : Type} (d : Assoc α) (k : String) (v : α)
    (h : Assoc.contains d k = true) :
    (Assoc.set d k v).map Prod.fst = d.map Prod.fst := by
  induction d with
  | nil => cases h
  | cons p rest ih =>
    rcases p with ⟨a, b⟩
    simp only [Assoc.contains] at h
    by_cases ha : a = k
    · simp [Assoc.set, ha]
    · rw [if_neg ha] at h
      simp [Assoc.set, ha, ih h]

theorem Assoc.keys_erase {α : Type} (d : Assoc α) (k : String) :
    (Assoc.erase d k).map Prod.fst = (d.map Prod.fst).filter (fun a => a ≠ k) := by
  induction d with
  | nil => rfl
  | cons p rest ih =>
    rcases p with ⟨a, b⟩
    by_cases ha : a = k
    · simp [Assoc.erase, ha, ih, List.filter_cons]
    · simp [Assoc.erase, ha, ih, List.filter_cons]

theorem nodup_keys_set {α : Type} (d : Assoc α) (k : String) (v : α)
    (h : (d.map Prod.fst).Nodup) : ((Assoc.set d k v).map Prod.fst).Nodup := by
  cases hc : Assoc.contains d k with
  | true => rw [Assoc.keys_set_of_contains _ _ _ hc]; exact h
  | false =>
    rw [Assoc.set_fresh _ _ _ hc]
    rw [List.map_append]
    rw [List.nodup_append]
    refine ⟨h, by simp, ?_⟩
    intro a ha hb
    simp only [List.map_cons, List.map_nil, List.mem_cons, List.not_mem_nil, or_false] at hb
    subst hb
    exact absurd (Assoc.contains_iff_mem_keys d a |>.mpr ha) (by rw [hc]; simp)

theorem nodup_keys_erase {α : Type} (d : Assoc α) (k : String)
    (h : (d.map Prod.fst).Nodup) : ((Assoc.erase d k).map Prod.fst).Nodup := by
  rw [Assoc.keys_erase]
  exact h.filter _

theorem nodup_keys_moveToEnd {α : Type} (d : Assoc α) (k : String)
    (h : (d.map Prod.fst).Nodup) : ((Assoc.moveToEnd d k).map Prod.fst).Nodup := by
  unfold Assoc.moveToEnd
  cases hv : Assoc.get? d k with
  | none => exact h
  | some v =>
    rw [List.map_append, List.nodup_append]
    refine ⟨nodup_keys_erase d k h, by simp, ?_⟩
    intro a ha hb
    simp only [List.map_cons, List.map_nil, List.mem_cons, List.not_mem_nil, or_false] at hb
    subst hb
    rw [Assoc.keys_erase] at ha
    have := List.of_mem_filter ha
    simp at this

theorem storeInv_of_eq (st st' : TraceStore) (ht : st'.traces = st.traces)
    (hs : st'.seen_spans = st.seen_spans) (h : StoreInv st) : StoreInv st' := by
  refine ⟨?_, ?_, ?_, ?_, ?_⟩
  · rw [ht]; exact h.nodupTraces
  · rw [hs]; exact h.nodupSeen
  · intro k; rw [ht, hs]; exact h.keysEq k
  · intro k g sid hg hm hne
    rw [ht] at hg
    have := h.spansSubSeen k g sid hg hm hne
    simpa [seenIn, hs] using this
  · intro sid k1 k2 hne h1 h2
    exact h.seenUnique sid k1 k2 hne (by simpa [seenIn, hs] using h1)
      (by simpa [seenIn, hs] using h2)

theorem seenSub_of_eq (st st' : TraceStore) (P : List String)
    (hs : st'.seen_spans = st.seen_spans) (h : SeenSub st P) : SeenSub st' P := by
  intro sid k hne hmem
  exact h sid k hne (by simpa [seenIn, hs] using hmem)

theorem evict_nil_eq (st : TraceStore) (hm : st.traces = []) : evictOldest st = st := by
  unfold evictOldest
  rw [hm]

theorem evict_cons_eq (st : TraceStore) (oid : String) (og : Group) (rest : Assoc Group)
    (hm : st.traces = (oid, og) :: rest) :
    evictOldest st = { st with
      traces := rest,
      seen_spans := Assoc.erase st.seen_spans oid,
      span_to_group := (og.spans.foldl (fun (acc : Assoc String × Assoc String) span =>
        (Assoc.erase acc.1 span.spanId, Assoc.erase acc.2 span.spanId))
        (st.span_to_group, st.parent_to_group)).1,
      parent_to_group := (og.spans.foldl (fun (acc : Assoc String × Assoc String) span =>
        (Assoc.erase acc.1 span.spanId, Assoc.erase acc.2 span.spanId))
        (st.span_to_group, st.parent_to_group)).2 } := by
  unfold evictOldest
  rw [hm]

theorem contains_evict_false (st : TraceStore) (k : String)
    (h : Assoc.contains st.traces k = false) :
    Assoc.contains (evictOldest st).traces k = false := by
  cases hm : st.traces with
  | nil => rw [evict_nil_eq st hm]; exact h
  | cons p rest =>
    rcases p with ⟨oid, og⟩
    rw [evict_cons_eq st oid og rest hm]
    show Assoc.contains rest k = false
    rw [hm] at h
    simp only [Assoc.contains] at h
    by_cases ho : oid = k
    · rw [if_pos ho] at h; cases h
    · rw [if_neg ho] at h; exact h

theorem seenIn_evict_sub (st : TraceStore) (sid k : String)
    (h : sid ∈ seenIn (evictOldest st) k) : sid ∈ seenIn st k := by
  cases hm : st.traces with
  | nil => rw [evict_nil_eq st hm] at h; exact h
  | cons p rest =>
    rcases p with ⟨oid, og⟩
    rw [evict_cons_eq st oid og rest hm] at h
    have h2 : sid ∈ (Assoc.get? (Assoc.erase st.seen_spans oid) k).getD [] := h
    rw [Assoc.get?_erase] at h2
    by_cases hk : k = oid
    · rw [if_pos hk] at h2
      simp at h2
    · rw [if_neg hk] at h2
      exact h2

theorem seenSub_evict (st : TraceStore) (P : List String) (h : SeenSub st P) :
    SeenSub (evictOldest st) P := by
  intro sid k hne hmem
  exact h sid k hne (seenIn_evict_sub st sid k hmem)

theorem inv_evict (st : TraceStore) (h : StoreInv st) : StoreInv (evictOldest st) := by
  cases hm : st.traces with
  | nil => rw [evict_nil_eq st hm]; exact h
  | cons p rest =>
    rcases p with ⟨oid, og⟩
    rw [evict_cons_eq st oid og rest hm]
    have hnod := h.nodupTraces
    rw [hm] at hnod
    simp only [Assoc.keys, List.map_cons, List.nodup_cons] at hnod
    have hno : oid ∉ rest.map Prod.fst := hnod.1
    have hcrest : Assoc.contains rest oid = false :=
      Assoc.contains_false_of_not_mem_keys rest oid hno
    have hseq : ∀ k, Assoc.contains st.traces k =
        if oid = k then true else Assoc.contains rest k := by
      intro k; rw [hm]; simp only [Assoc.contains]
    refine ⟨?_, ?_, ?_, ?_, ?_⟩
    · show (rest.map Prod.fst).Nodup
      exact hnod.2
    · show ((Assoc.erase st.seen_spans oid).map Prod.fst).Nodup
      exact nodup_keys_erase _ _ h.nodupSeen
    · intro k
      show Assoc.contains rest k = Assoc.contains (Assoc.erase st.seen_spans oid) k
      rw [Assoc.contains_erase]
      by_cases hk : k = oid
      · rw [if_pos hk, hk]; exact hcrest
      · rw [if_neg hk]
        have := h.keysEq k
        rw [hseq k, if_neg (fun ho => hk ho.symm)] at this
        exact this
    · intro k g sid hg hmem hne
      show sid ∈ (Assoc.get? (Assoc.erase st.seen_spans oid) k).getD []
      have hgr : Assoc.get? rest k = some g := hg
      have hk : k ≠ oid := by
        intro hk
        subst hk
        have hct : Assoc.contains rest k = true := by
          rw [Assoc.contains_eq_isSome, hgr]
          rfl
        rw [hcrest] at hct
        cases hct
      have hgst : Assoc.get? st.traces k = some g := by
        rw [hm]
        show (if oid = k then some og else Assoc.get? rest k) = some g
        rw [if_neg (fun ho => hk ho.symm)]
        exact hg
      have := h.spansSubSeen k g sid hgst hmem hne
      simp only [seenIn] at this
      rw [Assoc.get?_erase, if_neg hk]
      exact this
    · intro sid k1 k2 hne h1 h2
      have hred : ∀ k, sid ∈ (Assoc.get? (Assoc.erase st.seen_spans oid) k).getD [] →
          sid ∈ seenIn st k := by
        intro k hk
        rw [Assoc.get?_erase] at hk
        by_cases hko : k = oid
        · rw [if_pos hko] at hk; simp at hk
        · rw [if_neg hko] at hk; exact hk
      exact h.seenUnique sid k1 k2 hne (hred k1 h1) (hred k2 h2)

theorem ensure_eq_create (st : TraceStore) (gk : String) (st1 : TraceStore)
    (hc : Assoc.contains st.traces gk = false)
    (h1 : st1 = if st.traces.length ≥ st.max_traces then evictOldest st else st) :
    ensureGroup st gk = { st1 with
      traces := st1.traces ++ [(gk, { trace_id := gk, spans := [] })],
      seen_spans := Assoc.set st1.seen_spans gk [] } := by
  unfold ensureGroup
  rw [if_pos hc, ← h1]

theorem ensure_eq_touch (st : TraceStore) (gk : String)
    (hc : Assoc.contains st.traces gk = true) :
    ensureGroup st gk = { st with traces := Assoc.moveToEnd st.traces gk } := by
  unfold ensureGroup
  rw [if_neg (by simp [hc])]

theorem inv_create (st1 : TraceStore) (gk : String) (P : List String)
    (hinv : StoreInv st1) (hsub : SeenSub st1 P)
    (hc : Assoc.contains st1.traces gk = false) :
    StoreInv { st1 with
      traces := st1.traces ++ [(gk, { trace_id := gk, spans := [] })],
      seen_spans := Assoc.set st1.seen_spans gk [] } ∧
    SeenSub { st1 with
      traces := st1.traces ++ [(gk, { trace_id := gk, spans := [] })],
      seen_spans := Assoc.set st1.seen_spans gk [] } P ∧
    Assoc.contains (st1.traces ++ [(gk, ({ trace_id := gk, spans := [] } : Group))]) gk
      = true := by
  have hred : ∀ sid k, sid ∈ (Assoc.get? (Assoc.set st1.seen_spans gk []) k).getD [] →
      sid ∈ seenIn st1 k := by
    intro sid k hkm
    by_cases hk : k = gk
    · subst hk
      rw [Assoc.get?_set_self] at hkm
      simp at hkm
    · rw [Assoc.get?_set_ne _ _ _ _ hk] at hkm
      exact hkm
  refine ⟨⟨?_, ?_, ?_, ?_, ?_⟩, ?_, ?_⟩
  · show ((st1.traces ++ [(gk, ({ trace_id := gk, spans := [] } : Group))]).map Prod.fst).Nodup
    rw [List.map_append, List.nodup_append]
    refine ⟨hinv.nodupTraces, by simp, ?_⟩
    intro a ha hb
    simp only [List.map_cons, List.map_nil, List.mem_cons, List.not_mem_nil, or_false] at hb
    rw [hb] at ha
    exact absurd ((Assoc.contains_iff_mem_keys st1.traces gk).mpr ha) (by rw [hc]; simp)
  · show ((Assoc.set st1.seen_spans gk []).map Prod.fst).Nodup
    exact nodup_keys_set _ _ _ hinv.nodupSeen
  · intro k
    show Assoc.contains (st1.traces ++ [(gk, { trace_id := gk, spans := [] })]) k
      = Assoc.contains (Assoc.set st1.seen_spans gk []) k
    rw [Assoc.contains_append_single, Assoc.contains_set]
    by_cases hk : k = gk
    · rw [if_pos hk, if_pos hk]
    · rw [if_neg hk, if_neg hk]
      exact hinv.keysEq k
  · intro k g sid hg hmem hne
    show sid ∈ (Assoc.get? (Assoc.set st1.seen_spans gk []) k).getD []
    have hg1 : Assoc.get? (st1.traces ++ [(gk, { trace_id := gk, spans := [] })]) k
        = some g := hg
    by_cases hk : k = gk
    · subst hk
      have hnone : Assoc.get? st1.traces k = none :=
        Assoc.get?_eq_none_of_contains_false _ _ hc
      rw [Assoc.get?_append_of_none _ _ _ hnone] at hg1
      simp only [Assoc.get?, if_pos rfl] at hg1
      have hgg := Option.some.inj hg1
      rw [← hgg] at hmem
      simp at hmem
    · have hgt : Assoc.get? st1.traces k = some g := by
        cases hx : Assoc.get? st1.traces k with
        | some v =>
          rw [Assoc.get?_append_of_some _ _ _ _ hx] at hg1
          exact hg1
        | none =>
          rw [Assoc.get?_append_of_none _ _ _ hx] at hg1
          simp [Assoc.get?, Ne.symm hk] at hg1
      have := hinv.spansSubSeen k g sid hgt hmem hne
      simp only [seenIn] at this
      rw [Assoc.get?_set_ne _ _ _ _ hk]
      exact this
  · intro sid k1 k2 hne h1 h2
    exact hinv.seenUnique sid k1 k2 hne (hred sid k1 h1) (hred sid k2 h2)
  · intro sid k hne hkm
    exact hsub sid k hne (hred sid k hkm)
  · rw [Assoc.contains_append_single]
    simp

theorem inv_ensure (st : TraceStore) (gk : String) (P : List String)
    (hinv : StoreInv st) (hsub : SeenSub st P) :
    StoreInv (ensureGroup st gk) ∧ SeenSub (ensureGroup st gk) P ∧
      Assoc.contains (ensureGroup st gk).traces gk = true := by
  by_cases hc : Assoc.contains st.traces gk = false
  · by_cases hlen : st.traces.length ≥ st.max_traces
    · rw [ensure_eq_create st gk (evictOldest st) hc (by rw [if_pos hlen])]
      exact inv_create _ gk P (inv_evict st hinv) (seenSub_evict st P hsub)
        (contains_evict_false st gk hc)
    · rw [ensure_eq_create st gk st hc (by rw [if_neg hlen])]
      exact inv_create st gk P hinv hsub hc
  · have hct : Assoc.contains st.traces gk = true := by
      revert hc; cases Assoc.contains st.traces gk <;> simp
    rw [ensure_eq_touch st gk hct]
    refine ⟨⟨?_, hinv.nodupSeen, ?_, ?_, hinv.seenUnique⟩, ?_, ?_⟩
    · show ((Assoc.moveToEnd st.traces gk).map Prod.fst).Nodup
      exact nodup_keys_moveToEnd _ _ hinv.nodupTraces
    · intro k
      show Assoc.contains (Assoc.moveToEnd st.traces gk) k = Assoc.contains st.seen_spans k
      rw [Assoc.contains_moveToEnd]
      exact hinv.keysEq k
    · intro k g sid hg hmem hne
      have hg1 : Assoc.get? (Assoc.moveToEnd st.traces gk) k = some g := hg
      rw [Assoc.get?_moveToEnd] at hg1
      exact hinv.spansSubSeen k g sid hg1 hmem hne
    · exact seenSub_of_eq st _ P rfl hsub
    · show Assoc.contains (Assoc.moveToEnd st.traces gk) gk = true
      rw [Assoc.contains_moveToEnd]
      exact hct

theorem mg_fold_seen_src (dk : String) (spans : List Span)
    (acc : List Span × List String × Assoc String) (sid : String)
    (h : sid ∈ (spans.foldl (fun (acc : List Span × List String × Assoc String) span =>
      if span.spanId ≠ "" ∧ span.spanId ∉ acc.2.1 then
        (acc.1 ++ [span], acc.2.1 ++ [span.spanId], Assoc.set acc.2.2 span.spanId dk)
      else (acc.1, acc.2.1, Assoc.set acc.2.2 span.spanId dk)) acc).2.1) :
    sid ∈ acc.2.1 ∨ sid ∈ spans.map Span.spanId := by
  induction spans generalizing acc with
  | nil => exact Or.inl h
  | cons sp rest ih =>
    simp only [List.foldl_cons] at h
    rw [List.map_cons]
    by_cases hc : sp.spanId ≠ "" ∧ sp.spanId ∉ acc.2.1
    · rw [if_pos hc] at h
      rcases ih _ h with hin | hin
      · rcases List.mem_append.mp hin with h1 | h1
        · exact Or.inl h1
        · exact Or.inr (List.mem_cons.mpr (Or.inl (List.mem_singleton.mp h1)))
      · exact Or.inr (List.mem_cons_of_mem _ hin)
    · rw [if_neg hc] at h
      rcases ih _ h with hin | hin
      · exact Or.inl hin
      · exact Or.inr (List.mem_cons_of_mem _ hin)

theorem mg_fold_spans_seen (dk : String) (spans : List Span)
    (acc : List Span × List String × Assoc String)
    (hbase : ∀ x, x ≠ "" → x ∈ acc.1.map Span.spanId → x ∈ acc.2.1)
    (sid : String) (hne : sid ≠ "")
    (h : sid ∈ (spans.foldl (fun (acc : List Span × List String × Assoc String) span =>
      if span.spanId ≠ "" ∧ span.spanId ∉ acc.2.1 then
        (acc.1 ++ [span], acc.2.1 ++ [span.spanId], Assoc.set acc.2.2 span.spanId dk)
      else (acc.1, acc.2.1, Assoc.set acc.2.2 span.spanId dk)) acc).1.map Span.spanId) :
    sid ∈ (spans.foldl (fun (acc : List Span × List String × Assoc String) span =>
      if span.spanId ≠ "" ∧ span.spanId ∉ acc.2.1 then
        (acc.1 ++ [span], acc.2.1 ++ [span.spanId], Assoc.set acc.2.2 span.spanId dk)
      else (acc.1, acc.2.1, Assoc.set acc.2.2 span.spanId dk)) acc).2.1 := by
  induction spans generalizing acc with
  | nil => exact hbase sid hne h
  | cons sp rest ih =>
    simp only [List.foldl_cons] at h ⊢
    by_cases hc : sp.spanId ≠ "" ∧ sp.spanId ∉ acc.2.1
    · rw [if_pos hc] at h ⊢
      refine ih _ ?_ h
      intro x hx hxm
      rw [List.map_append] at hxm
      rcases List.mem_append.mp hxm with h1 | h1
      · exact List.mem_append_left _ (hbase x hx h1)
      · simp only [List.map_cons, List.map_nil] at h1
        rw [List.mem_singleton.mp h1]
        exact List.mem_append_right _ (List.mem_singleton.mpr rfl)
    · rw [if_neg hc] at h ⊢
      exact ih _ hbase h

theorem inv_merge_core (st : TraceStore) (srcKey dstKey : String) (P : List String)
    (hinv : StoreInv st) (hsub : SeenSub st P)
    (hne : srcKey ≠ dstKey) (hcs : Assoc.contains st.traces srcKey = true)
    (src dst : Group) (dstSeen srcSeen : List String)
    (folded : List Span × List String × Assoc String) (s2g p2g : Assoc String)
    (hsrc : src = (Assoc.get? st.traces srcKey).getD { trace_id := srcKey, spans := [] })
    (hdst : dst = (Assoc.get? (Assoc.erase st.traces srcKey) dstKey).getD
      { trace_id := dstKey, spans := [] })
    (hdstSeen : dstSeen = (Assoc.get? st.seen_spans dstKey).getD [])
    (hfolded : folded = src.spans.foldl
      (fun (acc : List Span × List String × Assoc String) span =>
        if span.spanId ≠ "" ∧ span.spanId ∉ acc.2.1 then
          (acc.1 ++ [span], acc.2.1 ++ [span.spanId], Assoc.set acc.2.2 span.spanId dstKey)
        else (acc.1, acc.2.1, Assoc.set acc.2.2 span.spanId dstKey))
      (dst.spans, dstSeen, st.span_to_group)) :
    StoreInv { st with
      traces := Assoc.set (Assoc.erase st.traces srcKey) dstKey { dst with spans := folded.1 },
      seen_spans := Assoc.set (Assoc.erase st.seen_spans srcKey) dstKey folded.2.1,
      span_to_group := s2g,
      parent_to_group := p2g } ∧
    SeenSub { st with
      traces := Assoc.set (Assoc.erase st.traces srcKey) dstKey { dst with spans := folded.1 },
      seen_spans := Assoc.set (Assoc.erase st.seen_spans srcKey) dstKey folded.2.1,
      span_to_group := s2g,
      parent_to_group := p2g } P := by
  have hsome : (Assoc.get? st.traces srcKey).isSome = true := by
    rw [← Assoc.contains_eq_isSome]; exact hcs
  obtain ⟨src0, hsrc0⟩ := Option.isSome_iff_exists.mp hsome
  have hsrcg : Assoc.get? st.traces srcKey = some src := by
    rw [hsrc0]
    rw [hsrc, hsrc0]
    rfl
  have hchar : ∀ sid k,
      sid ∈ (Assoc.get? (Assoc.set (Assoc.erase st.seen_spans srcKey) dstKey folded.2.1)
        k).getD [] →
      (k = dstKey ∧ sid ∈ folded.2.1) ∨ (k ≠ dstKey ∧ k ≠ srcKey ∧ sid ∈ seenIn st k) := by
    intro sid k hm
    by_cases hk : k = dstKey
    · subst hk
      rw [Assoc.get?_set_self] at hm
      exact Or.inl ⟨rfl, hm⟩
    · rw [Assoc.get?_set_ne _ _ _ _ hk, Assoc.get?_erase] at hm
      by_cases hks : k = srcKey
      · rw [if_pos hks] at hm
        simp at hm
      · rw [if_neg hks] at hm
        exact Or.inr ⟨hk, hks, hm⟩
  have hfoldsrc : ∀ sid, sid ≠ "" → sid ∈ folded.2.1 →
      sid ∈ seenIn st dstKey ∨ sid ∈ seenIn st srcKey := by
    intro sid hne0 hm
    rw [hfolded] at hm
    rcases mg_fold_seen_src dstKey src.spans _ sid hm with h1 | h1
    · left
      rw [hdstSeen] at h1
      exact h1
    · right
      exact hinv.spansSubSeen srcKey src sid hsrcg h1 hne0
  have hdstbase : ∀ x, x ≠ "" → x ∈ dst.spans.map Span.spanId → x ∈ dstSeen := by
    intro x hx hxm
    cases hdx : Assoc.get? (Assoc.erase st.traces srcKey) dstKey with
    | none =>
      rw [hdst, hdx] at hxm
      simp at hxm
    | some d =>
      have hgd : Assoc.get? st.traces dstKey = some d := by
        rw [Assoc.get?_erase, if_neg (Ne.symm hne)] at hdx
        exact hdx
      have hdd : dst = d := by rw [hdst, hdx]; rfl
      rw [hdd] at hxm
      have := hinv.spansSubSeen dstKey d x hgd hxm hx
      rw [hdstSeen]
      exact this
  refine ⟨⟨?_, ?_, ?_, ?_, ?_⟩, ?_⟩
  · show ((Assoc.set (Assoc.erase st.traces srcKey) dstKey
      { dst with spans := folded.1 }).map Prod.fst).Nodup
    exact nodup_keys_set _ _ _ (nodup_keys_erase _ _ hinv.nodupTraces)
  · show ((Assoc.set (Assoc.erase st.seen_spans srcKey) dstKey folded.2.1).map
      Prod.fst).Nodup
    exact nodup_keys_set _ _ _ (nodup_keys_erase _ _ hinv.nodupSeen)
  · intro k
    show Assoc.contains (Assoc.set (Assoc.erase st.traces srcKey) dstKey
        { dst with spans := folded.1 }) k
      = Assoc.contains (Assoc.set (Assoc.erase st.seen_spans srcKey) dstKey folded.2.1) k
    rw [Assoc.contains_set, Assoc.contains_set, Assoc.contains_erase, Assoc.contains_erase]
    by_cases hk : k = dstKey
    · rw [if_pos hk, if_pos hk]
    · rw [if_neg hk, if_neg hk]
      by_cases hks : k = srcKey
      · rw [if_pos hks, if_pos hks]
      · rw [if_neg hks, if_neg hks]
        exact hinv.keysEq k
  · intro k g sid hg hmem hne0
    show sid ∈ (Assoc.get? (Assoc.set (Assoc.erase st.seen_spans srcKey) dstKey folded.2.1)
      k).getD []
    have hg1 : Assoc.get? (Assoc.set (Assoc.erase st.traces srcKey) dstKey
        { dst with spans := folded.1 }) k = some g := hg
    by_cases hk : k = dstKey
    · rw [hk] at hg1
      rw [Assoc.get?_set_self] at hg1
      have hgg := Option.some.inj hg1
      rw [← hgg] at hmem
      have hmem1 : sid ∈ folded.1.map Span.spanId := hmem
      rw [hk, Assoc.get?_set_self]
      show sid ∈ folded.2.1
      rw [hfolded] at hmem1 ⊢
      exact mg_fold_spans_seen dstKey src.spans _ hdstbase sid hne0 hmem1
    · rw [Assoc.get?_set_ne _ _ _ _ hk, Assoc.get?_erase] at hg1
      by_cases hks : k = srcKey
      · rw [if_pos hks] at hg1
        cases hg1
      · rw [if_neg hks] at hg1
        have := hinv.spansSubSeen k g sid hg1 hmem hne0
        rw [Assoc.get?_set_ne _ _ _ _ hk, Assoc.get?_erase, if_neg hks]
        exact this
  · intro sid k1 k2 hne0 h1 h2
    have hc1 := hchar sid k1 h1
    have hc2 := hchar sid k2 h2
    rcases hc1 with ⟨he1, hm1⟩ | ⟨hne1, hns1, hm1⟩ <;>
      rcases hc2 with ⟨he2, hm2⟩ | ⟨hne2, hns2, hm2⟩
    · rw [he1, he2]
    · exfalso
      rcases hfoldsrc sid hne0 hm1 with hd | hs
      · exact hne2 (hinv.seenUnique sid k2 dstKey hne0 hm2 hd)
      · exact hns2 (hinv.seenUnique sid k2 srcKey hne0 hm2 hs)
    · exfalso
      rcases hfoldsrc sid hne0 hm2 with hd | hs
      · exact hne1 (hinv.seenUnique sid k1 dstKey hne0 hm1 hd)
      · exact hns1 (hinv.seenUnique sid k1 srcKey hne0 hm1 hs)
    · exact hinv.seenUnique sid k1 k2 hne0 hm1 hm2
  · intro sid k hne0 hm
    rcases hchar sid k hm with ⟨he, hmf⟩ | ⟨hne1, hns1, hmo⟩
    · rcases hfoldsrc sid hne0 hmf with hd | hs
      · exact hsub sid dstKey hne0 hd
      · exact hsub sid srcKey hne0 hs
    · exact hsub sid k hne0 hmo

theorem inv_mergeGroups (st : TraceStore) (srcKey dstKey : String) (P : List String)
    (hinv : StoreInv st) (hsub : SeenSub st P) :
    StoreInv (mergeGroups st srcKey dstKey) ∧ SeenSub (mergeGroups st srcKey dstKey) P := by
  by_cases hguard : srcKey = dstKey ∨ Assoc.contains st.traces srcKey = false
  · have heq : mergeGroups st srcKey dstKey = st := by
      unfold mergeGroups
      rw [if_pos hguard]
    rw [heq]
    exact ⟨hinv, hsub⟩
  · have hguard2 := hguard
    push_neg at hguard2
    obtain ⟨hne, hcs0⟩ := hguard2
    have hcs : Assoc.contains st.traces srcKey = true := by
      revert hcs0
      cases Assoc.contains st.traces srcKey <;> simp
    unfold mergeGroups
    rw [if_neg hguard]
    exact inv_merge_core st srcKey dstKey P hinv hsub hne hcs _ _ _
      ((Assoc.get? st.seen_spans srcKey).getD []) _ _ _ rfl rfl rfl rfl

theorem insertSpan_eq (st : TraceStore) (gk : String) (s : Span) :
    insertSpan st gk s =
      if s.spanId ≠ "" ∧ s.spanId ∈ (Assoc.get? st.seen_spans gk).getD [] then st
      else insertTail
        (if s.spanId ≠ "" then { st with
            seen_spans := Assoc.set st.seen_spans gk
              ((Assoc.get? st.seen_spans gk).getD [] ++ [s.spanId]),
            span_to_group := Assoc.set st.span_to_group s.spanId gk }
          else st) gk s := rfl

theorem inv_link_core (st3 : TraceStore) (gk : String) (s : Span) (Q : List String)
    (hi : StoreInv st3) (hs : SeenSub st3 Q) :
    StoreInv (if s.spanId ≠ "" then
        match Assoc.get? st3.parent_to_group s.spanId with
        | some other =>
          let st4 := { st3 with
            parent_to_group := Assoc.erase st3.parent_to_group s.spanId }
          if other ≠ gk ∧ Assoc.contains st4.traces other = true then
            mergeGroups st4 other gk
          else st4
        | none => st3
      else st3) ∧
    SeenSub (if s.spanId ≠ "" then
        match Assoc.get? st3.parent_to_group s.spanId with
        | some other =>
          let st4 := { st3 with
            parent_to_group := Assoc.erase st3.parent_to_group s.spanId }
          if other ≠ gk ∧ Assoc.contains st4.traces other = true then
            mergeGroups st4 other gk
          else st4
        | none => st3
      else st3) Q := by
  by_cases hx : s.spanId ≠ ""
  · rw [if_pos hx]
    cases hp : Assoc.get? st3.parent_to_group s.spanId with
    | none => exact ⟨hi, hs⟩
    | some other =>
      have hi4 : StoreInv { st3 with
          parent_to_group := Assoc.erase st3.parent_to_group s.spanId } :=
        storeInv_of_eq st3 _ rfl rfl hi
      have hs4 : SeenSub { st3 with
          parent_to_group := Assoc.erase st3.parent_to_group s.spanId } Q :=
        seenSub_of_eq st3 _ Q rfl hs
      simp only []
      by_cases hg : other ≠ gk ∧ Assoc.contains st3.traces other = true
      · rw [if_pos hg]
        exact inv_mergeGroups _ other gk Q hi4 hs4
      · rw [if_neg hg]
        exact ⟨hi4, hs4⟩
  · rw [if_neg hx]
    exact ⟨hi, hs⟩

theorem inv_insertLink (st2 : TraceStore) (gk : String) (s : Span) (Q : List String)
    (hi : StoreInv st2) (hs : SeenSub st2 Q) :
    StoreInv (insertLink st2 gk s) ∧ SeenSub (insertLink st2 gk s) Q := by
  unfold insertLink
  by_cases hpar : s.parentSpanId ≠ "" ∧
      Assoc.contains st2.span_to_group s.parentSpanId = false
  · rw [if_pos hpar]
    exact inv_link_core _ gk s Q (storeInv_of_eq st2 _ rfl rfl hi)
      (seenSub_of_eq st2 _ Q rfl hs)
  · rw [if_neg hpar]
    exact inv_link_core st2 gk s Q hi hs

theorem inv_span_append (st : TraceStore) (gk : String) (s : Span) (g : Group)
    (Q : List String)
    (hi : StoreInv st) (hs : SeenSub st Q)
    (hg : Assoc.get? st.traces gk = some g)
    (hsid : s.spanId ≠ "" → s.spanId ∈ seenIn st gk) :
    StoreInv { st with
      traces := Assoc.set st.traces gk { g with spans := g.spans ++ [s] } } ∧
    SeenSub { st with
      traces := Assoc.set st.traces gk { g with spans := g.spans ++ [s] } } Q := by
  refine ⟨⟨?_, hi.nodupSeen, ?_, ?_, hi.seenUnique⟩, ?_⟩
  · show ((Assoc.set st.traces gk { g with spans := g.spans ++ [s] }).map Prod.fst).Nodup
    exact nodup_keys_set _ _ _ hi.nodupTraces
  · intro k
    show Assoc.contains (Assoc.set st.traces gk { g with spans := g.spans ++ [s] }) k
      = Assoc.contains st.seen_spans k
    rw [Assoc.contains_set]
    by_cases hk : k = gk
    · rw [if_pos hk, hk, ← hi.keysEq gk, Assoc.contains_eq_isSome, hg]
      rfl
    · rw [if_neg hk]
      exact hi.keysEq k
  · intro k g2 sid hgt hmem hne0
    show sid ∈ (Assoc.get? st.seen_spans k).getD []
    have hgt1 : Assoc.get? (Assoc.set st.traces gk { g with spans := g.spans ++ [s] }) k
        = some g2 := hgt
    by_cases hk : k = gk
    · rw [hk, Assoc.get?_set_self] at hgt1
      have hgg := Option.some.inj hgt1
      rw [← hgg] at hmem
      have hmem1 : sid ∈ (g.spans ++ [s]).map Span.spanId := hmem
      rw [List.map_append] at hmem1
      rcases List.mem_append.mp hmem1 with h1 | h1
      · have := hi.spansSubSeen gk g sid hg h1 hne0
        rw [hk]
        exact this
      · simp only [List.map_cons, List.map_nil, List.mem_singleton] at h1
        rw [hk, h1]
        rw [h1] at hne0
        exact hsid hne0
    · rw [Assoc.get?_set_ne _ _ _ _ hk] at hgt1
      exact hi.spansSubSeen k g2 sid hgt1 hmem hne0
  · exact seenSub_of_eq st _ Q rfl hs

theorem inv_insert_tail (st1 : TraceStore) (gk : String) (s : Span) (Q : List String)
    (hi : StoreInv st1) (hs : SeenSub st1 Q)
    (hgk : Assoc.contains st1.traces gk = true)
    (hsid : s.spanId ≠ "" → s.spanId ∈ seenIn st1 gk) :
    StoreInv (insertTail st1 gk s) ∧ SeenSub (insertTail st1 gk s) Q := by
  obtain ⟨g0, hg0⟩ : ∃ g, Assoc.get? st1.traces gk = some g :=
    Option.isSome_iff_exists.mp (by rw [← Assoc.contains_eq_isSome]; exact hgk)
  unfold insertTail
  rw [hg0]
  simp only [Option.getD_some]
  by_cases hlen : g0.spans.length < MAX_SPANS_PER_TRACE
  · rw [if_pos hlen]
    have hsa := inv_span_append st1 gk s g0 Q hi hs hg0 hsid
    exact inv_insertLink _ gk s Q hsa.1 hsa.2
  · rw [if_neg hlen]
    exact inv_insertLink st1 gk s Q hi hs

theorem inv_seen_append (st : TraceStore) (gk x : String) (P : List String)
    (s2g : Assoc String)
    (hinv : StoreInv st) (hsub : SeenSub st P)
    (hgk : Assoc.contains st.traces gk = true)
    (hx : x ≠ "") (hfresh : ∀ k, x ∉ seenIn st k) :
    StoreInv { st with
      seen_spans := Assoc.set st.seen_spans gk
        ((Assoc.get? st.seen_spans gk).getD [] ++ [x]),
      span_to_group := s2g } ∧
    SeenSub { st with
      seen_spans := Assoc.set st.seen_spans gk
        ((Assoc.get? st.seen_spans gk).getD [] ++ [x]),
      span_to_group := s2g } (P ++ [x]) := by
  have hchar : ∀ sid k, sid ∈ (Assoc.get? (Assoc.set st.seen_spans gk
      ((Assoc.get? st.seen_spans gk).getD [] ++ [x])) k).getD [] →
      sid ∈ seenIn st k ∨ (k = gk ∧ sid = x) := by
    intro sid k hm
    by_cases hk : k = gk
    · rw [hk, Assoc.get?_set_self] at hm
      rcases List.mem_append.mp hm with h1 | h1
      · left
        rw [hk]
        exact h1
      · right
        exact ⟨hk, List.mem_singleton.mp h1⟩
    · rw [Assoc.get?_set_ne _ _ _ _ hk] at hm
      left
      exact hm
  refine ⟨⟨hinv.nodupTraces, ?_, ?_, ?_, ?_⟩, ?_⟩
  · show ((Assoc.set st.seen_spans gk
      ((Assoc.get? st.seen_spans gk).getD [] ++ [x])).map Prod.fst).Nodup
    exact nodup_keys_set _ _ _ hinv.nodupSeen
  · intro k
    show Assoc.contains st.traces k = Assoc.contains (Assoc.set st.seen_spans gk
      ((Assoc.get? st.seen_spans gk).getD [] ++ [x])) k
    rw [Assoc.contains_set]
    by_cases hk : k = gk
    · rw [if_pos hk, hk]
      exact hgk
    · rw [if_neg hk]
      exact hinv.keysEq k
  · intro k g sid hgt hmem hne0
    have hgt1 : Assoc.get? st.traces k = some g := hgt
    have hold := hinv.spansSubSeen k g sid hgt1 hmem hne0
    show sid ∈ (Assoc.get? (Assoc.set st.seen_spans gk
      ((Assoc.get? st.seen_spans gk).getD [] ++ [x])) k).getD []
    by_cases hk : k = gk
    · rw [hk, Assoc.get?_set_self]
      rw [hk] at hold
      exact List.mem_append_left _ hold
    · rw [Assoc.get?_set_ne _ _ _ _ hk]
      exact hold
  · intro sid k1 k2 hne0 h1 h2
    rcases hchar sid k1 h1 with ho1 | ⟨hk1, hs1⟩
    · rcases hchar sid k2 h2 with ho2 | ⟨hk2, hs2⟩
      · exact hinv.seenUnique sid k1 k2 hne0 ho1 ho2
      · exfalso
        rw [hs2] at ho1
        exact hfresh k1 ho1
    · rcases hchar sid k2 h2 with ho2 | ⟨hk2, hs2⟩
      · exfalso
        rw [hs1] at ho2
        exact hfresh k2 ho2
      · rw [hk1, hk2]
  · intro sid k hne0 hm
    rcases hchar sid k hm with ho | ⟨hk, hsx⟩
    · exact List.mem_append_left _ (hsub sid k hne0 ho)
    · rw [hsx]
      exact List.mem_append_right _ (List.mem_singleton.mpr rfl)

theorem inv_insert (st : TraceStore) (gk : String) (s : Span) (P : List String)
    (hinv : StoreInv st) (hsub : SeenSub st P)
    (hgk : Assoc.contains st.traces gk = true)
    (hfresh : s.spanId ≠ "" → ∀ k, s.spanId ∉ seenIn st k) :
    StoreInv (insertSpan st gk s) ∧ SeenSub (insertSpan st gk s) (P ++ [s.spanId]) := by
  have hsubx : SeenSub st (P ++ [s.spanId]) := fun sid k hne0 hm =>
    List.mem_append_left _ (hsub sid k hne0 hm)
  rw [insertSpan_eq]
  by_cases hdup : s.spanId ≠ "" ∧ s.spanId ∈ (Assoc.get? st.seen_spans gk).getD []
  · rw [if_pos hdup]
    exact ⟨hinv, hsubx⟩
  · rw [if_neg hdup]
    by_cases hx : s.spanId ≠ ""
    · rw [if_pos hx]
      have hsa := inv_seen_append st gk s.spanId P
        (Assoc.set st.span_to_group s.spanId gk) hinv hsub hgk hx (hfresh hx)
      refine (inv_insert_tail _ gk s (P ++ [s.spanId]) hsa.1 hsa.2 ?_ ?_)
      · show Assoc.contains st.traces gk = true
        exact hgk
      · intro _
        show s.spanId ∈ (Assoc.get? (Assoc.set st.seen_spans gk
          ((Assoc.get? st.seen_spans gk).getD [] ++ [s.spanId])) gk).getD []
        rw [Assoc.get?_set_self]
        exact List.mem_append_right _ (List.mem_singleton.mpr rfl)
    · rw [if_neg hx]
      refine inv_insert_tail st gk s (P ++ [s.spanId]) hinv hsubx hgk ?_
      intro hxx
      exact absurd hxx hx

theorem resolve_traces_seen (st : TraceStore) (tid : String) (s : Span) :
    (resolveGroupKey st tid s).2.traces = st.traces ∧
    (resolveGroupKey st tid s).2.seen_spans = st.seen_spans := by
  unfold resolveGroupKey
  cases hE1 : (if s.parentSpanId ≠ "" then Assoc.get? st.span_to_group s.parentSpanId
      else none) with
  | some g => exact ⟨rfl, rfl⟩
  | none =>
    cases hE2 : (if s.spanId ≠ "" then Assoc.get? st.parent_to_group s.spanId
        else none) with
    | some g => exact ⟨rfl, rfl⟩
    | none => exact ⟨rfl, rfl⟩

theorem inv_step (st : TraceStore) (tid : String) (s : Span) (P : List String)
    (hinv : StoreInv st) (hsub : SeenSub st P)
    (hnotin : s.spanId ≠ "" → s.spanId ∉ P) :
    StoreInv (mergeSpansOne st tid s) ∧
    SeenSub (mergeSpansOne st tid s) (P ++ [s.spanId]) := by
  have hr := resolve_traces_seen st tid s
  have hi0 : StoreInv (resolveGroupKey st tid s).2 :=
    storeInv_of_eq st _ hr.1 hr.2 hinv
  have hs0 : SeenSub (resolveGroupKey st tid s).2 P :=
    seenSub_of_eq st _ P hr.2 hsub
  have he := inv_ensure (resolveGroupKey st tid s).2 (resolveGroupKey st tid s).1 P hi0 hs0
  have hfresh : s.spanId ≠ "" → ∀ k,
      s.spanId ∉ seenIn (ensureGroup (resolveGroupKey st tid s).2
        (resolveGroupKey st tid s).1) k := by
    intro hx k hmem
    exact hnotin hx (he.2.1 s.spanId k hx hmem)
  unfold mergeSpansOne
  exact inv_insert _ _ s P he.1 he.2.1 he.2.2 hfresh

theorem nonemptyIds_cons_ne (s : Span) (rest : List Span) (hx : s.spanId ≠ "") :
    nonemptyIds (s :: rest) = s.spanId :: nonemptyIds rest := by
  simp [nonemptyIds, hx]

theorem nonemptyIds_cons_empty (s : Span) (rest : List Span) (hx : s.spanId = "") :
    nonemptyIds (s :: rest) = nonemptyIds rest := by
  simp [nonemptyIds, hx]

theorem nonemptyIds_mem_ne (spans : List Span) (x : String) (h : x ∈ nonemptyIds spans) :
    x ≠ "" := by
  unfold nonemptyIds at h
  have := List.of_mem_filter h
  simpa using this

theorem inv_merge_spans (tid : String) (spans : List Span) (st : TraceStore)
    (P : List String)
    (hinv : StoreInv st) (hsub : SeenSub st P)
    (hdisj : ∀ x ∈ nonemptyIds spans, x ∉ P)
    (hnd : (nonemptyIds spans).Nodup) :
    StoreInv (merge_spans st tid spans) ∧
    SeenSub (merge_spans st tid spans) (P ++ spans.map Span.spanId) := by
  induction spans generalizing st P with
  | nil =>
    refine ⟨hinv, ?_⟩
    rw [List.map_nil, List.append_nil]
    exact hsub
  | cons s rest ih =>
    have hne1 : s.spanId ≠ "" → s.spanId ∉ P := by
      intro hx
      refine hdisj s.spanId ?_
      rw [nonemptyIds_cons_ne s rest hx]
      exact List.mem_cons_self _ _
    have hstep := inv_step st tid s P hinv hsub hne1
    have hdisj2 : ∀ x ∈ nonemptyIds rest, x ∉ P ++ [s.spanId] := by
      intro x hx hmem
      have hxne : x ≠ "" := nonemptyIds_mem_ne rest x hx
      rcases List.mem_append.mp hmem with h1 | h1
      · by_cases hse : s.spanId = ""
        · exact hdisj x (by rw [nonemptyIds_cons_empty s rest hse]; exact hx) h1
        · exact hdisj x (by
            rw [nonemptyIds_cons_ne s rest hse]
            exact List.mem_cons_of_mem _ hx) h1
      · have hxeq := List.mem_singleton.mp h1
        by_cases hse : s.spanId = ""
        · rw [hse] at hxeq
          exact hxne hxeq
        · have hnd1 := hnd
          rw [nonemptyIds_cons_ne s rest hse] at hnd1
          rw [hxeq] at hx
          exact (List.nodup_cons.mp hnd1).1 hx
    have hnd2 : (nonemptyIds rest).Nodup := by
      by_cases hse : s.spanId = ""
      · rw [nonemptyIds_cons_empty s rest hse] at hnd
        exact hnd
      · rw [nonemptyIds_cons_ne s rest hse] at hnd
        exact (List.nodup_cons.mp hnd).2
    have heq : merge_spans st tid (s :: rest) =
        merge_spans (mergeSpansOne st tid s) tid rest := rfl
    rw [heq]
    have hres := ih (mergeSpansOne st tid s) (P ++ [s.spanId]) hstep.1 hstep.2 hdisj2 hnd2
    refine ⟨hres.1, ?_⟩
    have hap : (P ++ [s.spanId]) ++ rest.map Span.spanId
        = P ++ (s :: rest).map Span.spanId := by
      rw [List.map_cons, List.append_assoc]
      rfl
    rw [← hap]
    exact hres.2

theorem opsSpanIds_cons (op : String × List Span) (rest : List (String × List Span)) :
    opsSpanIds (op :: rest) = nonemptyIds op.2 ++ opsSpanIds rest := rfl

theorem opsSpanIds_mem_ne (ops : List (String × List Span)) (x : String)
    (h : x ∈ opsSpanIds ops) : x ≠ "" := by
  induction ops with
  | nil => cases h
  | cons op rest ih =>
    rw [opsSpanIds_cons] at h
    rcases List.mem_append.mp h with h1 | h1
    · exact nonemptyIds_mem_ne _ x h1
    · exact ih h1

theorem inv_ops_fold (ops : List (String × List Span)) (st : TraceStore) (P : List String)
    (hinv : StoreInv st) (hsub : SeenSub st P)
    (hdisj : ∀ x ∈ opsSpanIds ops, x ∉ P)
    (hnd : (opsSpanIds ops).Nodup) :
    StoreInv (ops.foldl (fun st op => merge_spans st op.1 op.2) st) := by
  induction ops generalizing st P with
  | nil => exact hinv
  | cons op rest ih =>
    rw [opsSpanIds_cons] at hdisj hnd
    rw [List.nodup_append] at hnd
    have hd1 : ∀ x ∈ nonemptyIds op.2, x ∉ P := fun x hx =>
      hdisj x (List.mem_append_left _ hx)
    have hm := inv_merge_spans op.1 op.2 st P hinv hsub hd1 hnd.1
    have hd2 : ∀ x ∈ opsSpanIds rest, x ∉ P ++ op.2.map Span.spanId := by
      intro x hx hmem
      rcases List.mem_append.mp hmem with h1 | h1
      · exact hdisj x (List.mem_append_right _ hx) h1
      · have hxne : x ≠ "" := opsSpanIds_mem_ne rest x hx
        have hxn : x ∈ nonemptyIds op.2 := by
          unfold nonemptyIds
          exact List.mem_filter.mpr ⟨h1, by simp [hxne]⟩
        exact hnd.2.2 hxn hx
    exact ih _ _ hm.1 hm.2 hd2 hnd.2.1

theorem inv_applyOps (cap : Nat) (ops : List (String × List Span))
    (hnd : (opsSpanIds ops).Nodup) : StoreInv (applyOps cap ops) := by
  unfold applyOps
  refine inv_ops_fold ops (emptyStore cap) [] ?_ ?_
    (fun x hx h => (List.not_mem_nil x) h) hnd
  · refine ⟨?_, ?_, ?_, ?_, ?_⟩
    · simp [emptyStore, Assoc.keys]
    · simp [emptyStore, Assoc.keys]
    · intro k
      rfl
    · intro k g sid hg hm hne
      exact absurd hg (by simp [emptyStore, Assoc.get?])
    · intro sid k1 k2 hne h1 h2
      simp [emptyStore, seenIn, Assoc.get?] at h1
  · intro sid k hne hm
    simp [emptyStore, seenIn, Assoc.get?] at hm

/-- C3 (amended): over any sequence of ingest operations in which no
nonempty span id occurs twice, each nonempty span id is resident — in
the retained span sequence or the seen-set — of at most one group.  (The
claim's unrestricted form, covering re-ingestion of an already-placed
span id routed to a different group, is refuted by
`C3_counterexample`; the `span_id → group_key` index itself is a
dictionary and trivially maps each id to one key.) -/
theorem C3_unique_residency (cap : Nat) (ops : List (String × List Span))
    (hnd : (opsSpanIds ops).Nodup) (sid k1 k2 : String) (hne : sid ≠ "")
    (h1 : ResidentIn (applyOps cap ops) sid k1)
    (h2 : ResidentIn (applyOps cap ops) sid k2) : k1 = k2 := by
  have hinv := inv_applyOps cap ops hnd
  have hseen : ∀ k, ResidentIn (applyOps cap ops) sid k →
      sid ∈ seenIn (applyOps cap ops) k := by
    intro k hk
    rcases hk with ⟨g, hg, hm⟩ | hm
    · exact hinv.spansSubSeen k g sid hg hm hne
    · exact hm
  exact hinv.seenUnique sid k1 k2 hne (hseen k1 h1) (hseen k2 h2)

/-- Witness for the amended C3: a concrete two-operation ingest with
distinct span ids, where span `b` (parent `a`, wire id `w2`) is routed
into group `w1` and is resident only there. -/
theorem C3_unique_residency_witness :
    (opsSpanIds [("w1", [⟨"a", ""⟩]), ("w2", [⟨"b", "a"⟩])]).Nodup ∧
    ("b" : String) ≠ "" ∧
    ResidentIn (applyOps 50 [("w1", [⟨"a", ""⟩]), ("w2", [⟨"b", "a"⟩])]) "b" "w1" ∧
    ("w1" : String) = "w1" :=
  ⟨by decide, by decide, Or.inr (by decide),
    C3_unique_residency 50 [("w1", [⟨"a", ""⟩]), ("w2", [⟨"b", "a"⟩])] (by decide)
      "b" "w1" "w1" (by decide) (Or.inr (by decide)) (Or.inr (by decide))⟩

end TraceCmd
